import Mathlib

/-!
# upgrade-proxy: a shallow embedding of `main.go`

The gateway hijacks every inbound connection, classifies the request with
`ReadHandshake`, and either forwards it with the default HTTP client or
negotiates an upgrade with the upstream, mirrors the upstream's interim
response with `AcceptHandshake` and then relays bytes in both directions with
two copy goroutines.

Modelling conventions.

* Go strings are Lean `String`s (text that is valid UTF-8).
* A Go map is the list of its entries, in the order in which a `range`
  statement visits them; lookup takes the first entry with the key.
* Stateful code is written in state-passing style over `World`: the client's
  buffered writer, the string variables whose address is taken, and the trace
  of calls the program makes on its collaborators, in program order.
* Code that `main.go` calls but does not define (`net/http`, the upgrade round
  tripper, the process environment, the scheduler) is a field of `Env` or an
  explicit schedule argument.
* The two copy goroutines and the handler are a small step machine (`step`)
  driven by a schedule, a list of thread identifiers.
-/

namespace UpgradeProxy

/-! ## Strings (`strings.ToLower`, `strings.Contains`) -/

/-- ASCII lower-casing of one byte: `c += 'a' - 'A'` when `'A' <= c <= 'Z'`. -/
def lowerByte (c : Char) : Char :=
  if 'A' ≤ c ∧ c ≤ 'Z' then Char.ofNat (c.toNat + 32) else c

/-- Go's `strings.ToLower`. An all-ASCII string without upper-case letters is
returned as it is, an all-ASCII string is lower-cased byte by byte, and every
other string is mapped rune by rune through `unicode.ToLower`, which is the
argument `lowerRune`. -/
def ToLower (lowerRune : Char → Char) (s : String) : String :=
  if s.data.all (fun c => decide (c.toNat < 128)) then
    if s.data.any (fun c => decide ('A' ≤ c ∧ c ≤ 'Z')) then
      String.mk (s.data.map lowerByte)
    else s
  else String.mk (s.data.map lowerRune)

/-- Whether `s` begins with `p`. -/
def startsWith : List Char → List Char → Bool
  | _, [] => true
  | [], _ :: _ => false
  | c :: cs, p :: ps => c == p && startsWith cs ps

/-- Whether `sub` occurs in `s` at some offset (a left-to-right search). -/
def occursIn : List Char → List Char → Bool
  | [], sub => startsWith [] sub
  | c :: cs, sub => startsWith (c :: cs) sub || occursIn cs sub

/-- Go's `strings.Contains`. -/
def Contains (s substr : String) : Bool := occursIn s.data substr.data

/-! ## `net/http` data -/

/-- An `http.Header`: a map from header names to their values. -/
abbrev Header := List (String × List String)

/-- The method `http.Header.Get`: the first value stored under `key`, or `""`.
The two keys `main.go` asks for, `"Upgrade"` and `"Connection"`, are already in
canonical form, so the canonicalisation of `key` is the identity on them. -/
def Header.Get (h : Header) (key : String) : String :=
  match h.lookup key with
  | some (v :: _) => v
  | _ => ""

/-- The parts of the inbound `*http.Request` that `main.go` reads; `URL` is
`req.URL.String()`. -/
structure Request where
  Method : String
  URL : String
  Header : Header
deriving DecidableEq

/-- The parts of an upstream `*http.Response` that `main.go` reads. -/
structure Response where
  Status : String
  Header : Header
deriving DecidableEq

/-- The outbound request built at lines 66-73: `http.NewRequest(inreq.Method,
url, nil)`, the cloned inbound headers, and the basic-auth credentials. -/
structure OutRequest where
  Method : String
  URL : String
  Header : Header
  BasicAuth : String × String
deriving DecidableEq

/-- The constant `http.StatusSwitchingProtocols`. -/
def StatusSwitchingProtocols : Nat := 101

/-- The constant `http.StatusBadRequest`. -/
def StatusBadRequest : Nat := 400

/-- An excerpt of `http.StatusText`: the texts of the codes listed. `main.go`
asks for the text of `http.StatusBadRequest` only. -/
def StatusText : Nat → String
  | 100 => "Continue"
  | 101 => "Switching Protocols"
  | 200 => "OK"
  | 400 => "Bad Request"
  | 401 => "Unauthorized"
  | 403 => "Forbidden"
  | 404 => "Not Found"
  | 500 => "Internal Server Error"
  | 502 => "Bad Gateway"
  | _ => ""

/-- The verb `%03d` of `fmt`: decimal, padded with zeros to three digits. -/
def fmt03d (n : Nat) : String :=
  String.mk (List.replicate (3 - (Nat.repr n).data.length) '0') ++ Nat.repr n

/-! ## Errors -/

/-- An `error` value. `ErrBadRequestMethod` and `ErrNotUpgrade` are the two
`*ProtocolError` pointers allocated at lines 23-24, which Go compares by
identity; `external` is an error made by a collaborator, with its message. -/
inductive GoError where
  | ErrBadRequestMethod
  | ErrNotUpgrade
  | external (msg : String)
deriving DecidableEq

/-- The method `Error()` of an error value. -/
def GoError.Error : GoError → String
  | .ErrBadRequestMethod => "bad method"
  | .ErrNotUpgrade => "not upgrade"
  | .external msg => msg

/-! ## The trace of calls -/

/-- The two directions of the tunnel: `io.Copy(outConn, inrwc)` at line 129 and
`io.Copy(inrwc, outConn)` at line 136. -/
inductive Dir where
  | inToOut
  | outToIn
deriving DecidableEq

/-- A call the program makes, with what the model needs of its arguments and of
its result. -/
inductive Event where
  | println (s : String)
  | hijack (ok : Bool)
  | newRequest (method url : String) (ok : Bool)
  | clientDo (req : OutRequest) (ok : Bool)
  | respWrite (resp : Response)
  | newUpgradeRoundTripper (upgradeType : String)
  | roundTrip (req : OutRequest) (ok : Bool)
  | newConnection (ok : Bool)
  | bufWrite (s : String)
  | bufFlush (err : Option GoError)
  | wgAdd (n : Nat)
  | wgDone
  | wgWait
  | lock
  | unlock
  | go (d : Dir)
  | copyReturned (d : Dir)
  | closeOut
  | closeIn
deriving DecidableEq

/-! ## The client's `bufio.Writer` -/

/-- A `bufio.Writer` over the hijacked connection: `out` is what the connection
has accepted, `buf` what is buffered, `err` the writer's sticky error, and
`wrErr` the error with which the connection's `Write` fails, if it fails. The
buffer is unbounded, so the connection is written to by `Flush` only. -/
structure Writer where
  out : String
  buf : String
  err : Option GoError
  wrErr : Option String
deriving DecidableEq

/-- The method `WriteString` (and `Write`): after an error nothing is accepted. -/
def Writer.WriteString (b : Writer) (s : String) : Writer :=
  match b.err with
  | some _ => b
  | none => { b with buf := b.buf ++ s }

/-- The method `Flush`: returns the sticky error if there is one, else hands
the buffered bytes to the connection and records its error. -/
def Writer.Flush (b : Writer) : Writer × Option GoError :=
  match b.err with
  | some e => (b, some e)
  | none =>
    if b.buf = "" then (b, none)
    else
      match b.wrErr with
      | none => ({ b with out := b.out ++ b.buf, buf := "" }, none)
      | some msg => ({ b with err := some (.external msg) }, some (.external msg))

/-! ## The program state -/

/-- The address of a string variable. -/
abbrev StrPtr := Nat

/-- The string variables whose address is taken, by address. -/
abbrev Heap := List String

/-- The state the request handler works on. -/
structure World where
  inbuf : Writer
  heap : Heap
  trace : List Event
deriving DecidableEq

/-- Record a call. -/
def World.emit (σ : World) (e : Event) : World :=
  { σ with trace := σ.trace ++ [e] }

/-- The call `fmt.Println(s)`. -/
def World.Println (σ : World) (s : String) : World :=
  σ.emit (.println s)

/-- A `WriteString` (or `Write`) on the client's buffered writer. -/
def World.WriteString (σ : World) (s : String) : World :=
  { σ with inbuf := σ.inbuf.WriteString s, trace := σ.trace ++ [.bufWrite s] }

/-- A `Flush` of the client's buffered writer. -/
def World.Flush (σ : World) : World × Option GoError :=
  ({ σ with inbuf := σ.inbuf.Flush.1, trace := σ.trace ++ [.bufFlush σ.inbuf.Flush.2] },
    σ.inbuf.Flush.2)

/-- A new string variable holding `s`; returns its address. -/
def World.alloc (σ : World) (s : String) : World × StrPtr :=
  ({ σ with heap := σ.heap ++ [s] }, σ.heap.length)

/-- The string stored at address `p`. -/
def World.load (σ : World) (p : StrPtr) : String :=
  σ.heap.getD p ""

/-! ## The collaborators -/

/-- What `main.go` calls and does not define.

* `unicodeToLower` is `unicode.ToLower`.
* `API_SERVER`, `USERNAME`, `PASSWORD` are the values `env.GetString` returns.
* `NewRequest method url` is the error of `http.NewRequest(method, url, nil)`.
* `Do req` is the result of `http.DefaultClient.Do(req)`.
* `RoundTrip upgradeType req` is the result of `RoundTrip(req)` on the round
  tripper `NewUpgradeRoundTripper(nil, true, false, upgradeType)`.
* `NewConnection resp` is the error of the round tripper's
  `NewConnection(resp)`.
* `respWire resp` is what `resp.Write` writes. -/
structure Env where
  unicodeToLower : Char → Char
  API_SERVER : String
  USERNAME : String
  PASSWORD : String
  NewRequest : String → String → Option String
  Do : OutRequest → Except String Response
  RoundTrip : String → OutRequest → Except String Response
  NewConnection : Response → Option String
  respWire : Response → String

/-- The call `resp.Write(inbuf)`: the response goes to the client's buffered
writer in its wire form. -/
def World.respWrite (σ : World) (E : Env) (resp : Response) : World :=
  { σ with inbuf := σ.inbuf.WriteString (E.respWire resp),
           trace := σ.trace ++ [.respWrite resp] }

/-! ## The handshaker (lines 14-50) -/

/-- The struct `myServerHandshaker`: its field is a pointer to a string. -/
structure myServerHandshaker where
  UpgradeType : StrPtr
deriving DecidableEq

/-- Lines 27-36. The local `upgradeType` has its address taken at line 34, so
it is a variable of its own on the heap; on success the FIELD `c.UpgradeType`
is set to that address. Returns the state, the receiver, and `(code, err)`. -/
def ReadHandshake (E : Env) (σ : World) (c : myServerHandshaker) (req : Request) :
    World × myServerHandshaker × Nat × Option GoError :=
  let upgradeType := req.Header.Get "Upgrade"
  let (σ, p) := σ.alloc upgradeType
  if ToLower E.unicodeToLower upgradeType = "" ∨
      ¬ Contains (ToLower E.unicodeToLower (req.Header.Get "Connection")) "upgrade" = true then
    (σ, c, StatusBadRequest, some .ErrNotUpgrade)
  else
    (σ, { c with UpgradeType := p }, StatusSwitchingProtocols, none)

/-- Lines 38-50. The receiver is not used. -/
def AcceptHandshake (σ : World) (resp : Response) : World × Option GoError :=
  let σ := σ.WriteString "HTTP/1.1 101 Switching Protocols\r\n"
  let σ := resp.Header.foldl (fun σ entry =>
    entry.2.foldl (fun σ headerValue =>
      σ.WriteString (entry.1 ++ ": " ++ headerValue ++ "\r\n")) σ) σ
  let σ := σ.WriteString "\r\n"
  σ.Flush

/-! ## The tunnel (lines 123-153) -/

/-- The threads of a tunnel: the handler and the two copy goroutines. -/
inductive Tid where
  | handler
  | inToOut
  | outToIn
deriving DecidableEq

/-- Where the handler is: the statement it executes next. -/
inductive HPc where
  | add        -- line 124, allComplete.Add(2)
  | lock1      -- line 126, anyComplete.Lock()
  | go1        -- line 128, go func() ... io.Copy(outConn, inrwc)
  | go2        -- line 135, go func() ... io.Copy(inrwc, outConn)
  | lock2      -- line 142, anyComplete.Lock()
  | closeOut   -- line 145, outConn.Close()
  | closeIn    -- line 146, inrwc.Close()
  | wait       -- line 149, allComplete.Wait()
  | ret        -- line 153, return
deriving DecidableEq

/-- Where a copy goroutine is. -/
inductive GPc where
  | idle       -- the go statement has not run
  | copy       -- in io.Copy
  | unlock     -- io.Copy has returned; next anyComplete.Unlock()
  | done       -- next allComplete.Done()
  | exited
deriving DecidableEq

/-- The state of a tunnel: the three program counters, the mutex
`anyComplete`, the counter of the wait group `allComplete`, whether the
process has died of a run-time error, and the trace. -/
structure Tunnel where
  h : HPc
  g1 : GPc
  g2 : GPc
  locked : Bool
  counter : Nat
  fatal : Bool
  trace : List Event
deriving DecidableEq

/-- The tunnel when line 123 is reached, with the trace so far. -/
def Tunnel.init (tr : List Event) : Tunnel :=
  { h := .add, g1 := .idle, g2 := .idle, locked := false, counter := 0, fatal := false,
    trace := tr }

/-- The program counter of a copy goroutine. -/
def Tunnel.g (s : Tunnel) : Dir → GPc
  | .inToOut => s.g1
  | .outToIn => s.g2

/-- Set the program counter of a copy goroutine. -/
def Tunnel.setG (s : Tunnel) (d : Dir) (pc : GPc) : Tunnel :=
  match d with
  | .inToOut => { s with g1 := pc }
  | .outToIn => { s with g2 := pc }

/-- The line a copy goroutine prints when its `io.Copy` has returned. -/
def copyMessage : Dir → String
  | .inToOut => "Copy in to out complete. url:"
  | .outToIn => "Copy out to in complete. url:"

/-- One statement of the handler, `none` when it cannot run: `Lock` blocks
while the mutex is locked, `Wait` blocks while the counter is not zero. -/
def stepHandler (url : String) (s : Tunnel) : Option Tunnel :=
  match s.h with
  | .add => some { s with h := .lock1, counter := s.counter + 2, trace := s.trace ++ [.wgAdd 2] }
  | .lock1 =>
    if s.locked then none
    else some { s with h := .go1, locked := true, trace := s.trace ++ [.lock] }
  | .go1 => some { s with h := .go2, g1 := .copy, trace := s.trace ++ [.go .inToOut] }
  | .go2 => some { s with h := .lock2, g2 := .copy, trace := s.trace ++ [.go .outToIn] }
  | .lock2 =>
    if s.locked then none
    else some { s with h := .closeOut, locked := true,
                       trace := s.trace ++ [.lock, .println ("Calling close on in+out. url:" ++ url)] }
  | .closeOut => some { s with h := .closeIn, trace := s.trace ++ [.closeOut] }
  | .closeIn =>
    some { s with h := .wait,
                  trace := s.trace ++
                    [.closeIn, .println ("Calling close on in+out complete. url:" ++ url)] }
  | .wait =>
    if s.counter = 0 then
      some { s with h := .ret,
                    trace := s.trace ++
                      [.wgWait, .println ("Copy out <-> in complete. url:" ++ url),
                       .println ("Handling done. url:" ++ url)] }
    else none
  | .ret => none

/-- One statement of a copy goroutine, `none` when it cannot run. `io.Copy`
may return at any time. `Unlock` of a mutex that is not locked, and `Done` on
a counter that is zero, are run-time errors that end the process. -/
def stepCopy (url : String) (d : Dir) (s : Tunnel) : Option Tunnel :=
  match s.g d with
  | .idle => none
  | .copy =>
    some { s.setG d .unlock with
      trace := s.trace ++ [.copyReturned d, .println (copyMessage d ++ url)] }
  | .unlock =>
    if s.locked then
      some { s.setG d .done with locked := false, trace := s.trace ++ [.unlock] }
    else some { s with fatal := true, trace := s.trace ++ [.unlock] }
  | .done =>
    if s.counter = 0 then some { s with fatal := true, trace := s.trace ++ [.wgDone] }
    else some { s.setG d .exited with counter := s.counter - 1, trace := s.trace ++ [.wgDone] }
  | .exited => none

/-- One step of thread `t`; nothing runs once the process has died. -/
def step (url : String) (t : Tid) (s : Tunnel) : Option Tunnel :=
  if s.fatal then none
  else
    match t with
    | .handler => stepHandler url s
    | .inToOut => stepCopy url .inToOut s
    | .outToIn => stepCopy url .outToIn s

/-- Run a schedule: each entry lets one thread take a step, and an entry whose
thread cannot run is skipped. -/
def run (url : String) (sched : List Tid) (s : Tunnel) : Tunnel :=
  sched.foldl (fun s t => (step url t s).getD s) s

/-! ## The request handler (lines 57-169) -/

/-- How a call of `newServerConn` ends: it returns `err`, or the process dies
of a run-time error, or the handler has not returned when the schedule ends. -/
inductive Outcome where
  | returned (err : Option GoError)
  | fatal
  | running
deriving DecidableEq

/-- Lines 79-91, the plain path. -/
def forwardPlain (E : Env) (σ : World) (inreq : Request) (outreq : OutRequest) :
    World × Outcome :=
  match E.Do outreq with
  | .error e =>
    let err := GoError.external e
    ((σ.emit (.clientDo outreq false)).Println ("Error in do:" ++ err.Error),
      .returned (some err))
  | .ok outresp =>
    let σ := σ.emit (.clientDo outreq true)
    let σ := σ.Println ("< [" ++ outresp.Status ++ "]" ++ inreq.URL)
    let σ := σ.respWrite E outresp
    let σ := σ.Flush.1
    (σ, .returned none)

/-- Lines 123-153, the tunnel, under a schedule. -/
def tunnel (sched : List Tid) (σ : World) (inreq : Request) : World × Outcome :=
  let s := run inreq.URL sched (Tunnel.init σ.trace)
  ({ σ with trace := s.trace },
    if s.fatal then .fatal else if s.h = .ret then .returned none else .running)

/-- Lines 93-153, the upgrade path; `upgradeType` is the local variable of
`newServerConn`, read at lines 93 and 95. -/
def upgradePath (E : Env) (sched : List Tid) (σ : World) (inreq : Request)
    (outreq : OutRequest) (upgradeType : String) : World × Outcome :=
  let σ := σ.Println ("Inbound upgrade request. type=" ++ upgradeType ++ " url:" ++ inreq.URL)
  let σ := σ.emit (.newUpgradeRoundTripper upgradeType)
  match E.RoundTrip upgradeType outreq with
  | .error e =>
    let err := GoError.external e
    ((σ.emit (.roundTrip outreq false)).Println ("Error in do:" ++ err.Error),
      .returned (some err))
  | .ok outresp =>
    let σ := σ.emit (.roundTrip outreq true)
    let σ := σ.Println ("Outbound upgrade requested. url:" ++ inreq.URL)
    match E.NewConnection outresp with
    | some e =>
      let err := GoError.external e
      ((σ.emit (.newConnection false)).Println ("Error in NewConnection:" ++ err.Error),
        .returned (some err))
    | none =>
      let σ := σ.emit (.newConnection true)
      let σ := σ.Println ("Outbound upgrade accepted. url:" ++ inreq.URL)
      match AcceptHandshake σ outresp with
      | (σ, some err) =>
        let code := StatusBadRequest
        let σ := σ.WriteString ("HTTP/1.1 " ++ fmt03d code ++ " " ++ StatusText code ++ "\r\n")
        let σ := σ.WriteString "\r\n"
        let σ := σ.Flush.1
        (σ, .returned (some err))
      | (σ, none) =>
        let σ := σ.Println ("Inbound upgrade accepted. url:" ++ inreq.URL)
        tunnel sched σ inreq

/-- Lines 66-73, when `http.NewRequest` has succeeded: the outbound request with
the inbound method, the upstream URL, the cloned inbound headers and the
credentials of the environment. -/
def outboundRequest (E : Env) (inreq : Request) : OutRequest :=
  { Method := inreq.Method, URL := E.API_SERVER ++ inreq.URL, Header := inreq.Header,
    BasicAuth := (E.USERNAME, E.PASSWORD) }

/-- Lines 57-154. `inbuf` is the buffered writer of the hijacked connection and
`sched` the schedule under which a tunnel, if it starts, runs. -/
def newServerConn (E : Env) (sched : List Tid) (inbuf : Writer) (inreq : Request) :
    World × Outcome :=
  let σ : World := { inbuf := inbuf, heap := [], trace := [] }
  let σ := σ.Println ("> [" ++ inreq.Method ++ "]" ++ inreq.URL)
  -- upgradeType := "" ; its address is taken at line 61
  let (σ, upgradeType) := σ.alloc ""
  let hs : myServerHandshaker := { UpgradeType := upgradeType }
  let (σ, _, _, hserr) := ReadHandshake E σ hs inreq
  let url := E.API_SERVER ++ inreq.URL
  match E.NewRequest inreq.Method url with
  | some e => (σ.emit (.newRequest inreq.Method url false), .returned (some (.external e)))
  | none =>
    let σ := σ.emit (.newRequest inreq.Method url true)
    let outreq := outboundRequest E inreq
    let isUpgrade := hserr ≠ some .ErrNotUpgrade
    if ¬ isUpgrade then forwardPlain E σ inreq outreq
    else upgradePath E sched σ inreq outreq (σ.load upgradeType)

/-- How a call of `serveUpgrade` ends. -/
inductive Exit where
  | returned
  | panicked (msg : String)
  | fatal
  | running
deriving DecidableEq

/-- Lines 156-169. `hijack` is the result of `w.(http.Hijacker).Hijack()`: the
buffered writer of the connection, or an error. The deferred `rwc.Close()`
runs when `newServerConn` has returned. Returns the trace and how it ends. -/
def serveUpgrade (E : Env) (sched : List Tid) (hijack : Except String Writer)
    (req : Request) : List Event × Exit :=
  match hijack with
  | .error e => ([.hijack false], .panicked ("Hijack failed: " ++ e))
  | .ok buf =>
    match newServerConn E sched buf req with
    | (σ, .returned _) => (.hijack true :: σ.trace ++ [.closeIn], .returned)
    | (σ, .fatal) => (.hijack true :: σ.trace, .fatal)
    | (σ, .running) => (.hijack true :: σ.trace, .running)

/-! ## Specification-side definitions -/

/-- The upgrade condition in the words of the spec: the first `Upgrade` value is
not empty, and `"upgrade"` is a substring of the lower-cased first `Connection`
value. -/
def upgradeCondition (E : Env) (req : Request) : Prop :=
  req.Header.Get "Upgrade" ≠ "" ∧
    ∃ pre post : List Char,
      (ToLower E.unicodeToLower (req.Header.Get "Connection")).data =
        pre ++ "upgrade".data ++ post

/-- One line `<name>: <value>` and a line end per header value: the values of a
name in their order, the names in the order of the map. -/
def headerLines (h : Header) : List String :=
  h.flatMap (fun entry => entry.2.map (fun v => entry.1 ++ ": " ++ v ++ "\r\n"))

/-- The writes of a complete switching-protocols response that mirrors `resp`. -/
def acceptWrites (resp : Response) : List Event :=
  .bufWrite "HTTP/1.1 101 Switching Protocols\r\n" ::
    (headerLines resp.Header).map Event.bufWrite ++ [.bufWrite "\r\n"]

/-- The calls of `newServerConn` up to and including `http.NewRequest`. -/
def startTrace (E : Env) (req : Request) (ok : Bool) : List Event :=
  [.println ("> [" ++ req.Method ++ "]" ++ req.URL),
   .newRequest req.Method (E.API_SERVER ++ req.URL) ok]

/-- The calls of the upgrade path from line 93 to line 109, when the round trip
and `NewConnection` succeed. -/
def upgradeTrace (E : Env) (req : Request) (upgradeType : String) : List Event :=
  [.println ("Inbound upgrade request. type=" ++ upgradeType ++ " url:" ++ req.URL),
   .newUpgradeRoundTripper upgradeType,
   .roundTrip (outboundRequest E req) true,
   .println ("Outbound upgrade requested. url:" ++ req.URL),
   .newConnection true,
   .println ("Outbound upgrade accepted. url:" ++ req.URL)]

/-- The string variables of a call of `newServerConn`: its own `upgradeType`,
and the `upgradeType` of `ReadHandshake`. -/
def heapAfter (req : Request) : Heap := ["", req.Header.Get "Upgrade"]

/-- The ways a call of `newServerConn` can go, each with the trace, the state of
the client's writer and the outcome it ends with. -/
inductive Path (E : Env) (sched : List Tid) (w : Writer) (req : Request) :
    List Event → Writer → Outcome → Prop where
  | newRequestFails (e : String)
      (hn : E.NewRequest req.Method (E.API_SERVER ++ req.URL) = some e) :
      Path E sched w req (startTrace E req false) w (.returned (some (.external e)))
  | doFails (e : String)
      (hn : E.NewRequest req.Method (E.API_SERVER ++ req.URL) = none)
      (hu : ¬ upgradeCondition E req)
      (hd : E.Do (outboundRequest E req) = .error e) :
      Path E sched w req
        (startTrace E req true ++
          [.clientDo (outboundRequest E req) false, .println ("Error in do:" ++ e)])
        w (.returned (some (.external e)))
  | forwarded (resp : Response)
      (hn : E.NewRequest req.Method (E.API_SERVER ++ req.URL) = none)
      (hu : ¬ upgradeCondition E req)
      (hd : E.Do (outboundRequest E req) = .ok resp) :
      Path E sched w req
        (startTrace E req true ++
          [.clientDo (outboundRequest E req) true,
           .println ("< [" ++ resp.Status ++ "]" ++ req.URL),
           .respWrite resp,
           .bufFlush (w.WriteString (E.respWire resp)).Flush.2])
        (w.WriteString (E.respWire resp)).Flush.1 (.returned none)
  | roundTripFails (e : String)
      (hn : E.NewRequest req.Method (E.API_SERVER ++ req.URL) = none)
      (hu : upgradeCondition E req)
      (hr : E.RoundTrip "" (outboundRequest E req) = .error e) :
      Path E sched w req
        (startTrace E req true ++
          [.println ("Inbound upgrade request. type=" ++ "" ++ " url:" ++ req.URL),
           .newUpgradeRoundTripper "",
           .roundTrip (outboundRequest E req) false,
           .println ("Error in do:" ++ e)])
        w (.returned (some (.external e)))
  | newConnectionFails (resp : Response) (e : String)
      (hn : E.NewRequest req.Method (E.API_SERVER ++ req.URL) = none)
      (hu : upgradeCondition E req)
      (hr : E.RoundTrip "" (outboundRequest E req) = .ok resp)
      (hc : E.NewConnection resp = some e) :
      Path E sched w req
        (startTrace E req true ++
          [.println ("Inbound upgrade request. type=" ++ "" ++ " url:" ++ req.URL),
           .newUpgradeRoundTripper "",
           .roundTrip (outboundRequest E req) true,
           .println ("Outbound upgrade requested. url:" ++ req.URL),
           .newConnection false,
           .println ("Error in NewConnection:" ++ e)])
        w (.returned (some (.external e)))
  | acceptFails (resp : Response) (err : GoError)
      (hn : E.NewRequest req.Method (E.API_SERVER ++ req.URL) = none)
      (hu : upgradeCondition E req)
      (hr : E.RoundTrip "" (outboundRequest E req) = .ok resp)
      (hc : E.NewConnection resp = none)
      (ha : (AcceptHandshake ⟨w, [], []⟩ resp).2 = some err) :
      Path E sched w req
        (startTrace E req true ++ upgradeTrace E req "" ++ acceptWrites resp ++
          [.bufFlush (some err), .bufWrite "HTTP/1.1 400 Bad Request\r\n", .bufWrite "\r\n",
           .bufFlush (some err)])
        (AcceptHandshake ⟨w, [], []⟩ resp).1.inbuf (.returned (some err))
  | tunnelled (resp : Response)
      (hn : E.NewRequest req.Method (E.API_SERVER ++ req.URL) = none)
      (hu : upgradeCondition E req)
      (hr : E.RoundTrip "" (outboundRequest E req) = .ok resp)
      (hc : E.NewConnection resp = none)
      (ha : (AcceptHandshake ⟨w, [], []⟩ resp).2 = none) :
      Path E sched w req
        (startTrace E req true ++ upgradeTrace E req "" ++ acceptWrites resp ++
          [.bufFlush none, .println ("Inbound upgrade accepted. url:" ++ req.URL)] ++
          (run req.URL sched (Tunnel.init [])).trace)
        (AcceptHandshake ⟨w, [], []⟩ resp).1.inbuf
        (if (run req.URL sched (Tunnel.init [])).fatal = true then .fatal
         else if (run req.URL sched (Tunnel.init [])).h = .ret then .returned none
         else .running)

/-- The events that only the tunnel makes, or `fmt.Println`. -/
def tunnelEvent : Event → Bool
  | .println _ | .wgAdd _ | .wgDone | .wgWait | .lock | .unlock | .go _
  | .copyReturned _ | .closeOut | .closeIn => true
  | _ => false

/-- The events that put bytes on the client's buffered writer or flush it. -/
def clientWrite : Event → Bool
  | .bufWrite _ | .bufFlush _ | .respWrite _ => true
  | _ => false

/-- Whether a copy goroutine still has its `allComplete.Done()` to call. -/
def pending : GPc → Nat
  | .exited => 0
  | _ => 1

/-- Whether the `io.Copy` of a copy goroutine has returned. -/
def copyEnded : GPc → Bool
  | .unlock | .done | .exited => true
  | _ => false

/-- Whether the handler has executed the first go statement (line 128). -/
def spawned1 : HPc → Bool
  | .add | .lock1 | .go1 => false
  | _ => true

/-- Whether the handler has executed the second go statement (line 135). -/
def spawned2 : HPc → Bool
  | .add | .lock1 | .go1 | .go2 => false
  | _ => true

/-- Whether the handler holds `anyComplete` from line 126 and has not yet
passed line 142. -/
def holding : HPc → Bool
  | .go1 | .go2 | .lock2 => true
  | _ => false

/-- Whether the handler has got past the second `anyComplete.Lock()` (line 142). -/
def pastLock2 : HPc → Bool
  | .closeOut | .closeIn | .wait | .ret => true
  | _ => false

/-- Whether the handler has called `outConn.Close()` (line 145). -/
def pastCloseOut : HPc → Bool
  | .closeIn | .wait | .ret => true
  | _ => false

/-- Whether the handler has called `inrwc.Close()` (line 146). -/
def pastCloseIn : HPc → Bool
  | .wait | .ret => true
  | _ => false

/-- What holds in every state a tunnel reaches from `Tunnel.init`. -/
structure Inv (s : Tunnel) : Prop where
  idle1 : spawned1 s.h = false → s.g1 = .idle
  idle2 : spawned2 s.h = false → s.g2 = .idle
  count0 : s.h = .add → s.counter = 0
  count : s.h ≠ .add → s.counter = pending s.g1 + pending s.g2
  held : holding s.h = true → copyEnded s.g1 = false → copyEnded s.g2 = false →
    s.locked = true
  gate : pastLock2 s.h = true → copyEnded s.g1 = true ∨ copyEnded s.g2 = true
  closedOut : pastCloseOut s.h = true → Event.closeOut ∈ s.trace
  closedIn : pastCloseIn s.h = true → Event.closeIn ∈ s.trace
  ended1 : copyEnded s.g1 = true → Event.copyReturned .inToOut ∈ s.trace
  ended2 : copyEnded s.g2 = true → Event.copyReturned .outToIn ∈ s.trace
  closeFirst : Event.closeOut ∈ s.trace ∨ Event.closeIn ∈ s.trace → pastLock2 s.h = true
  ret : s.h = .ret → s.counter = 0
  waited : s.h = .ret → Event.wgWait ∈ s.trace

/-- The number of `inrwc.Close()` calls in the trace of a fresh tunnel. -/
def CloseCount (s : Tunnel) : Prop :=
  s.trace.count Event.closeIn = if pastCloseIn s.h = true then 1 else 0

/-- The same tunnel state with `tr` put before its trace. -/
def Tunnel.prepend (tr : List Event) (s : Tunnel) : Tunnel :=
  { s with trace := tr ++ s.trace }

/-! ## Sample inputs -/

/-- An upstream response to a plain request. -/
def sampleResponse : Response := { Status := "200 OK", Header := [] }

/-- The upstream's interim response of the spec's scenario. -/
def switchingResponse : Response :=
  { Status := "101 Switching Protocols",
    Header := [("Upgrade", ["websocket"]), ("Connection", ["Upgrade"]),
               ("Sec-WebSocket-Accept", ["X"])] }

/-- An environment in which every collaborator succeeds. -/
def sampleEnv : Env :=
  { unicodeToLower := id,
    API_SERVER := "http://api",
    USERNAME := "u",
    PASSWORD := "p",
    NewRequest := fun _ _ => none,
    Do := fun _ => Except.ok sampleResponse,
    RoundTrip := fun _ _ => Except.ok switchingResponse,
    NewConnection := fun _ => none,
    respWire := fun r => "HTTP/1.1 " ++ r.Status ++ "\r\n\r\n" }

/-- An environment whose upstream cannot be reached. -/
def unreachableEnv : Env :=
  { sampleEnv with
    Do := fun _ => Except.error "connection refused",
    RoundTrip := fun _ _ => Except.error "connection refused" }

/-- The upgrade request of the spec's scenario. -/
def upgradeRequest : Request :=
  { Method := "GET", URL := "/chat",
    Header := [("Upgrade", ["websocket"]), ("Connection", ["Upgrade"])] }

/-- A request without upgrade headers. -/
def plainRequest : Request :=
  { Method := "GET", URL := "/status", Header := [] }

/-- A writer over a connection that accepts everything. -/
def goodWriter : Writer := { out := "", buf := "", err := none, wrErr := none }

/-- A writer over a connection whose `Write` fails. -/
def brokenWriter : Writer :=
  { out := "", buf := "", err := none, wrErr := some "broken pipe" }

/-- A schedule under which the client-to-upstream copy ends first, the handler
closes both connections, and then the other copy ends. -/
def orderlySchedule : List Tid :=
  [.handler, .handler, .handler, .handler, .inToOut, .inToOut, .handler, .handler, .handler,
   .outToIn, .outToIn, .inToOut, .outToIn, .handler]

/-- A schedule under which both copies end before the handler gets the mutex
again. -/
def racySchedule : List Tid :=
  [.handler, .handler, .handler, .handler, .inToOut, .inToOut, .outToIn, .outToIn]

/-! ## Strings -/

theorem startsWith_iff (s p : List Char) :
    startsWith s p = true ↔ ∃ post, s = p ++ post := by
  induction p generalizing s with
  | nil => simp [startsWith]
  | cons a p ih =>
    cases s with
    | nil => simp [startsWith]
    | cons c cs =>
      simp only [startsWith, Bool.and_eq_true, beq_iff_eq, ih, List.cons_append, List.cons.injEq]
      constructor
      · rintro ⟨rfl, post, rfl⟩
        exact ⟨post, rfl, rfl⟩
      · rintro ⟨post, rfl, rfl⟩
        exact ⟨rfl, post, rfl⟩

theorem occursIn_iff (s sub : List Char) :
    occursIn s sub = true ↔ ∃ pre post, s = pre ++ sub ++ post := by
  induction s with
  | nil =>
    simp only [occursIn, startsWith_iff]
    constructor
    · rintro ⟨post, h⟩
      exact ⟨[], post, by simpa using h⟩
    · rintro ⟨pre, post, h⟩
      have h1 : pre = [] ∧ sub = [] ∧ post = [] := by
        simpa [List.append_eq_nil, and_assoc] using h.symm
      exact ⟨[], by simp [h1.2.1]⟩
  | cons c cs ih =>
    simp only [occursIn, Bool.or_eq_true, startsWith_iff, ih]
    constructor
    · rintro (⟨post, h⟩ | ⟨pre, post, h⟩)
      · exact ⟨[], post, by simpa using h⟩
      · exact ⟨c :: pre, post, by simp [h]⟩
    · rintro ⟨pre, post, h⟩
      cases pre with
      | nil => exact Or.inl ⟨post, by simpa using h⟩
      | cons a pre =>
        simp only [List.cons_append, List.cons.injEq] at h
        exact Or.inr ⟨pre, post, h.2⟩

theorem ToLower_eq_empty (f : Char → Char) (s : String) : ToLower f s = "" ↔ s = "" := by
  have hmk : ∀ l : List Char, String.mk l = "" ↔ l = [] := by
    intro l
    constructor
    · intro h
      have := congrArg String.data h
      simpa using this
    · rintro rfl
      rfl
  have hs : s = "" ↔ s.data = [] := by
    constructor
    · rintro rfl
      rfl
    · intro h
      exact String.ext (by simpa using h)
  unfold ToLower
  split_ifs <;> simp [hmk, hs]

theorem upgradeCondition_iff (E : Env) (req : Request) :
    upgradeCondition E req ↔
      ¬ (ToLower E.unicodeToLower (req.Header.Get "Upgrade") = "" ∨
          ¬ Contains (ToLower E.unicodeToLower (req.Header.Get "Connection")) "upgrade" = true) := by
  unfold upgradeCondition Contains
  rw [ToLower_eq_empty, occursIn_iff, not_or, not_not]

/-! ## The handshaker -/

theorem ReadHandshake_result (E : Env) (σ : World) (c : myServerHandshaker) (req : Request) :
    (ReadHandshake E σ c req).2.2 =
      if ToLower E.unicodeToLower (req.Header.Get "Upgrade") = "" ∨
          ¬ Contains (ToLower E.unicodeToLower (req.Header.Get "Connection")) "upgrade" = true
      then (400, some GoError.ErrNotUpgrade) else (101, none) := by
  unfold ReadHandshake
  simp only [World.alloc]
  split_ifs <;> rfl

/-- C1. `ReadHandshake` returns `(101, nil)` exactly when the first `Upgrade`
value is not empty and the lower-cased first `Connection` value contains
`"upgrade"`; in every other case it returns `(400, ErrNotUpgrade)`, so there
is no third outcome; and the `Connection` values `"Upgrade, Keep-Alive"` and
`"NoUpgradeAllowed"` are upgrades when `Upgrade` is not empty. -/
theorem ReadHandshake_classifies (E : Env) (σ : World) (c : myServerHandshaker)
    (req : Request) :
    ((ReadHandshake E σ c req).2.2 = (101, none) ↔ upgradeCondition E req) ∧
    (¬ upgradeCondition E req →
      (ReadHandshake E σ c req).2.2 = (400, some GoError.ErrNotUpgrade)) ∧
    (req.Header.Get "Upgrade" ≠ "" →
      req.Header.Get "Connection" = "Upgrade, Keep-Alive" ∨
        req.Header.Get "Connection" = "NoUpgradeAllowed" →
      (ReadHandshake E σ c req).2.2 = (101, none)) := by
  have key : (ReadHandshake E σ c req).2.2 = (101, none) ↔ upgradeCondition E req := by
    rw [ReadHandshake_result, upgradeCondition_iff]
    split_ifs with h
    · exact ⟨fun h1 => by simp at h1, fun h1 => absurd h h1⟩
    · exact ⟨fun _ => h, fun _ => rfl⟩
  refine ⟨key, ?_, ?_⟩
  · intro h
    rw [ReadHandshake_result]
    rw [upgradeCondition_iff, not_not] at h
    rw [if_pos h]
  · intro hu hc
    rw [key]
    refine ⟨hu, ?_⟩
    rw [← occursIn_iff]
    rcases hc with hc | hc <;> rw [hc] <;> rfl

/-- C1, at a request with `Connection: NoUpgradeAllowed`. -/
theorem ReadHandshake_classifies_witness :
    (ReadHandshake sampleEnv ⟨goodWriter, [], []⟩ ⟨0⟩
        ⟨"GET", "/", [("Upgrade", ["websocket"]), ("Connection", ["NoUpgradeAllowed"])]⟩).2.2 =
      (101, none) :=
  (ReadHandshake_classifies sampleEnv ⟨goodWriter, [], []⟩ ⟨0⟩
      ⟨"GET", "/", [("Upgrade", ["websocket"]), ("Connection", ["NoUpgradeAllowed"])]⟩).2.2
    (by decide) (Or.inr (by decide))

theorem join_foldl (acc : String) (ls : List String) :
    ls.foldl (fun r s => r ++ s) acc = acc ++ String.join ls := by
  induction ls generalizing acc with
  | nil => simp [String.join]
  | cons a ls ih =>
    simp only [List.foldl_cons, String.join]
    rw [ih, ih ("" ++ a), String.append_assoc, String.empty_append]

theorem join_cons (a : String) (ls : List String) :
    String.join (a :: ls) = a ++ String.join ls := by
  simp only [String.join, List.foldl_cons, String.empty_append]
  exact join_foldl a ls

theorem join_append (ls ms : List String) :
    String.join (ls ++ ms) = String.join ls ++ String.join ms := by
  induction ls with
  | nil => simp [String.join]
  | cons a ls ih => simp only [List.cons_append, join_cons, ih, String.append_assoc]

/-- The strings `AcceptHandshake` writes, in order. -/
theorem acceptWrites_eq (resp : Response) :
    acceptWrites resp =
      ("HTTP/1.1 101 Switching Protocols\r\n" :: headerLines resp.Header ++ ["\r\n"]).map
        Event.bufWrite := by
  simp [acceptWrites]

theorem foldl_WriteString_trace (σ : World) (ls : List String) :
    (ls.foldl World.WriteString σ).trace = σ.trace ++ ls.map Event.bufWrite := by
  induction ls generalizing σ with
  | nil => simp
  | cons a ls ih => simp [ih, World.WriteString]

theorem foldl_WriteString_heap (σ : World) (ls : List String) :
    (ls.foldl World.WriteString σ).heap = σ.heap := by
  induction ls generalizing σ with
  | nil => simp
  | cons a ls ih => simp [ih, World.WriteString]

theorem foldl_WriteString_inbuf (σ : World) (ls : List String) :
    (ls.foldl World.WriteString σ).inbuf = ls.foldl Writer.WriteString σ.inbuf := by
  induction ls generalizing σ with
  | nil => simp
  | cons a ls ih => simp [ih, World.WriteString]

theorem foldl_Writer_ok (b : Writer) (ls : List String) (h : b.err = none) :
    ls.foldl Writer.WriteString b = { b with buf := b.buf ++ String.join ls } := by
  induction ls generalizing b with
  | nil => simp [String.join]
  | cons a ls ih =>
    have h1 : b.WriteString a = { b with buf := b.buf ++ a } := by
      simp [Writer.WriteString, h]
    rw [List.foldl_cons, h1, ih { b with buf := b.buf ++ a } h, join_cons]
    simp [String.append_assoc]

theorem foldl_Writer_err (b : Writer) (ls : List String) (e : GoError) (h : b.err = some e) :
    ls.foldl Writer.WriteString b = b := by
  induction ls with
  | nil => simp
  | cons a ls ih =>
    have h1 : b.WriteString a = b := by simp [Writer.WriteString, h]
    rw [List.foldl_cons, h1, ih]

theorem headerLoop_eq (σ : World) (h : Header) :
    h.foldl (fun σ entry =>
      entry.2.foldl (fun σ headerValue =>
        World.WriteString σ (entry.1 ++ ": " ++ headerValue ++ "\r\n")) σ) σ =
      (headerLines h).foldl World.WriteString σ := by
  induction h generalizing σ with
  | nil => simp [headerLines]
  | cons entry h ih =>
    have hl : headerLines (entry :: h) =
        entry.2.map (fun v => entry.1 ++ ": " ++ v ++ "\r\n") ++ headerLines h := by
      simp [headerLines]
    rw [List.foldl_cons, ih, hl, List.foldl_append, List.foldl_map]

/-- The body of `AcceptHandshake` is a sequence of writes and a flush. -/
theorem AcceptHandshake_eq (σ : World) (resp : Response) :
    AcceptHandshake σ resp =
      (("HTTP/1.1 101 Switching Protocols\r\n" :: headerLines resp.Header ++ ["\r\n"]).foldl
        World.WriteString σ).Flush := by
  simp only [AcceptHandshake, headerLoop_eq, List.foldl_cons, List.foldl_append, List.foldl_nil]

theorem AcceptHandshake_trace (σ : World) (resp : Response) :
    (AcceptHandshake σ resp).1.trace =
      σ.trace ++ acceptWrites resp ++ [.bufFlush (AcceptHandshake σ resp).2] := by
  rw [AcceptHandshake_eq, acceptWrites_eq]
  simp only [World.Flush, foldl_WriteString_trace, List.append_assoc]

theorem AcceptHandshake_heap (σ : World) (resp : Response) :
    (AcceptHandshake σ resp).1.heap = σ.heap := by
  rw [AcceptHandshake_eq]
  simp only [World.Flush, foldl_WriteString_heap]

/-- The writer after `AcceptHandshake`, and its result, depend on the writer only. -/
theorem AcceptHandshake_inbuf (σ : World) (resp : Response) :
    ((AcceptHandshake σ resp).1.inbuf, (AcceptHandshake σ resp).2) =
      (("HTTP/1.1 101 Switching Protocols\r\n" :: headerLines resp.Header ++ ["\r\n"]).foldl
        Writer.WriteString σ.inbuf).Flush := by
  rw [AcceptHandshake_eq]
  simp only [World.Flush, foldl_WriteString_inbuf]

theorem append_ne_empty (a b c : String) (hb : b ≠ "") : a ++ (b ++ c) ≠ "" := by
  intro h
  have h1 := congrArg String.data h
  simp only [String.data_append] at h1
  have h2 : b.data = [] := by
    have : a.data = [] ∧ b.data = [] ∧ c.data = [] := by
      simpa [List.append_eq_nil] using h1
    exact this.2.1
  exact hb (String.ext (by simpa using h2))

/-- C3. On a writer that does not fail, `AcceptHandshake` returns nil, and
what it hands to the connection is the line `HTTP/1.1 101 Switching Protocols`,
one line `<name>: <value>` for every value of every header of `resp` (the
values of a name in their order, the names in the order of the map), and an
empty line, nothing else; nothing stays buffered, and the calls are these
writes followed by one flush. The status of `resp` plays no part. -/
theorem AcceptHandshake_mirrors (σ : World) (resp : Response)
    (herr : σ.inbuf.err = none) (hwr : σ.inbuf.wrErr = none) :
    (AcceptHandshake σ resp).2 = none ∧
    (AcceptHandshake σ resp).1.inbuf.out =
      σ.inbuf.out ++ (σ.inbuf.buf ++
        ("HTTP/1.1 101 Switching Protocols\r\n" ++
          (String.join (headerLines resp.Header) ++ "\r\n"))) ∧
    (AcceptHandshake σ resp).1.inbuf.buf = "" ∧
    (AcceptHandshake σ resp).1.trace =
      σ.trace ++ acceptWrites resp ++ [.bufFlush none] := by
  have hio := AcceptHandshake_inbuf σ resp
  have hj : String.join ["\r\n"] = "\r\n" := rfl
  rw [foldl_Writer_ok _ _ herr, join_append, join_cons, hj, String.append_assoc] at hio
  have hne : σ.inbuf.buf ++ ("HTTP/1.1 101 Switching Protocols\r\n" ++
      (String.join (headerLines resp.Header) ++ "\r\n")) ≠ "" :=
    append_ne_empty _ _ _ (by decide)
  simp only [Writer.Flush, herr, hwr, if_neg hne, Prod.mk.injEq] at hio
  have h2 : (AcceptHandshake σ resp).2 = none := hio.2
  refine ⟨h2, ?_, ?_, ?_⟩
  · rw [hio.1]
  · rw [hio.1]
  · rw [AcceptHandshake_trace, h2]

/-- C3, at the interim response of the spec's scenario. -/
theorem AcceptHandshake_mirrors_witness :
    (AcceptHandshake ⟨goodWriter, [], []⟩ switchingResponse).1.inbuf.out =
      "HTTP/1.1 101 Switching Protocols\r\nUpgrade: websocket\r\nConnection: Upgrade\r\nSec-WebSocket-Accept: X\r\n\r\n" :=
  (AcceptHandshake_mirrors ⟨goodWriter, [], []⟩ switchingResponse rfl rfl).2.1.trans
    (by decide)

/-! ## The tunnel -/

theorem run_nil (url : String) (s : Tunnel) : run url [] s = s := rfl

theorem run_cons (url : String) (t : Tid) (ts : List Tid) (s : Tunnel) :
    run url (t :: ts) s = run url ts ((step url t s).getD s) := rfl

theorem run_append (url : String) (ts us : List Tid) (s : Tunnel) :
    run url (ts ++ us) s = run url us (run url ts s) := by
  simp [run, List.foldl_append]

/-- A property that every step keeps holds after every schedule. -/
theorem run_induction (url : String) (P : Tunnel → Prop)
    (hstep : ∀ s t s', P s → step url t s = some s' → P s')
    (sched : List Tid) (s : Tunnel) (h : P s) : P (run url sched s) := by
  induction sched generalizing s with
  | nil => exact h
  | cons t ts ih =>
    rw [run_cons]
    apply ih
    cases hs : step url t s with
    | none => simpa using h
    | some s' => simpa using hstep s t s' h hs

/-- What a step of the handler does. -/
theorem stepHandler_cases (url : String) (s s' : Tunnel) (h : stepHandler url s = some s') :
    (s.h = .add ∧
      s' = { s with h := .lock1, counter := s.counter + 2, trace := s.trace ++ [.wgAdd 2] }) ∨
    (s.h = .lock1 ∧ s.locked = false ∧
      s' = { s with h := .go1, locked := true, trace := s.trace ++ [.lock] }) ∨
    (s.h = .go1 ∧
      s' = { s with h := .go2, g1 := .copy, trace := s.trace ++ [.go .inToOut] }) ∨
    (s.h = .go2 ∧
      s' = { s with h := .lock2, g2 := .copy, trace := s.trace ++ [.go .outToIn] }) ∨
    (s.h = .lock2 ∧ s.locked = false ∧
      s' = { s with h := .closeOut, locked := true,
                    trace := s.trace ++
                      [.lock, .println ("Calling close on in+out. url:" ++ url)] }) ∨
    (s.h = .closeOut ∧ s' = { s with h := .closeIn, trace := s.trace ++ [.closeOut] }) ∨
    (s.h = .closeIn ∧
      s' = { s with h := .wait,
                    trace := s.trace ++
                      [.closeIn, .println ("Calling close on in+out complete. url:" ++ url)] }) ∨
    (s.h = .wait ∧ s.counter = 0 ∧
      s' = { s with h := .ret,
                    trace := s.trace ++
                      [.wgWait, .println ("Copy out <-> in complete. url:" ++ url),
                       .println ("Handling done. url:" ++ url)] }) := by
  unfold stepHandler at h
  split at h
  · simp_all
  · split at h <;> simp_all
  · simp_all
  · simp_all
  · split at h <;> simp_all
  · simp_all
  · simp_all
  · split at h <;> simp_all
  · simp_all

/-- What a step of a copy goroutine does. -/
theorem stepCopy_cases (url : String) (d : Dir) (s s' : Tunnel)
    (h : stepCopy url d s = some s') :
    (s.g d = .copy ∧
      s' = { (s.setG d .unlock) with
               trace := s.trace ++ [.copyReturned d, .println (copyMessage d ++ url)] }) ∨
    (s.g d = .unlock ∧ s.locked = true ∧
      s' = { (s.setG d .done) with locked := false, trace := s.trace ++ [.unlock] }) ∨
    (s.g d = .unlock ∧ s.locked = false ∧
      s' = { s with fatal := true, trace := s.trace ++ [.unlock] }) ∨
    (s.g d = .done ∧ s.counter = 0 ∧
      s' = { s with fatal := true, trace := s.trace ++ [.wgDone] }) ∨
    (s.g d = .done ∧ s.counter ≠ 0 ∧
      s' = { (s.setG d .exited) with
               counter := s.counter - 1, trace := s.trace ++ [.wgDone] }) := by
  unfold stepCopy at h
  split at h
  · simp_all
  · simp_all
  · split at h <;> simp_all
  · split at h <;> simp_all
  · simp_all

/-- A step only appends events to the trace, and they are tunnel events. -/
theorem step_trace (url : String) (t : Tid) (s s' : Tunnel) (h : step url t s = some s') :
    ∃ ev, s'.trace = s.trace ++ ev ∧ ∀ e ∈ ev, tunnelEvent e = true := by
  unfold step at h
  split at h
  · simp at h
  · cases t with
    | handler =>
      rcases stepHandler_cases url s s' h with
        ⟨_, rfl⟩ | ⟨_, _, rfl⟩ | ⟨_, rfl⟩ | ⟨_, rfl⟩ | ⟨_, _, rfl⟩ | ⟨_, rfl⟩ | ⟨_, rfl⟩ |
        ⟨_, _, rfl⟩ <;>
      exact ⟨_, rfl, by simp [tunnelEvent]⟩
    | inToOut =>
      rcases stepCopy_cases url _ s s' h with
        ⟨_, rfl⟩ | ⟨_, _, rfl⟩ | ⟨_, _, rfl⟩ | ⟨_, _, rfl⟩ | ⟨_, _, rfl⟩ <;>
      exact ⟨_, rfl, by simp [tunnelEvent]⟩
    | outToIn =>
      rcases stepCopy_cases url _ s s' h with
        ⟨_, rfl⟩ | ⟨_, _, rfl⟩ | ⟨_, _, rfl⟩ | ⟨_, _, rfl⟩ | ⟨_, _, rfl⟩ <;>
      exact ⟨_, rfl, by simp [tunnelEvent]⟩

/-- A run only appends events to the trace, and they are tunnel events. -/
theorem run_trace (url : String) (sched : List Tid) (s : Tunnel) :
    ∃ ev, (run url sched s).trace = s.trace ++ ev ∧ ∀ e ∈ ev, tunnelEvent e = true := by
  induction sched generalizing s with
  | nil => exact ⟨[], by simp [run_nil], by simp⟩
  | cons t ts ih =>
    rw [run_cons]
    cases hs : step url t s with
    | none => simpa using ih s
    | some s' =>
      obtain ⟨ev1, h1, h1e⟩ := step_trace url t s s' hs
      obtain ⟨ev2, h2, h2e⟩ := ih s'
      refine ⟨ev1 ++ ev2, ?_, ?_⟩
      · simp [h2, h1]
      · intro e he
        rcases List.mem_append.1 he with he | he
        · exact h1e e he
        · exact h2e e he

theorem pending_simps :
    pending .idle = 1 ∧ pending .copy = 1 ∧ pending .unlock = 1 ∧ pending .done = 1 ∧
      pending .exited = 0 :=
  ⟨rfl, rfl, rfl, rfl, rfl⟩

theorem copyEnded_simps :
    copyEnded .idle = false ∧ copyEnded .copy = false ∧ copyEnded .unlock = true ∧
      copyEnded .done = true ∧ copyEnded .exited = true :=
  ⟨rfl, rfl, rfl, rfl, rfl⟩

theorem spawned1_simps :
    spawned1 .add = false ∧ spawned1 .lock1 = false ∧ spawned1 .go1 = false ∧
      spawned1 .go2 = true ∧ spawned1 .lock2 = true ∧ spawned1 .closeOut = true ∧
      spawned1 .closeIn = true ∧ spawned1 .wait = true ∧ spawned1 .ret = true :=
  ⟨rfl, rfl, rfl, rfl, rfl, rfl, rfl, rfl, rfl⟩

theorem spawned2_simps :
    spawned2 .add = false ∧ spawned2 .lock1 = false ∧ spawned2 .go1 = false ∧
      spawned2 .go2 = false ∧ spawned2 .lock2 = true ∧ spawned2 .closeOut = true ∧
      spawned2 .closeIn = true ∧ spawned2 .wait = true ∧ spawned2 .ret = true :=
  ⟨rfl, rfl, rfl, rfl, rfl, rfl, rfl, rfl, rfl⟩

theorem holding_simps :
    holding .add = false ∧ holding .lock1 = false ∧ holding .go1 = true ∧
      holding .go2 = true ∧ holding .lock2 = true ∧ holding .closeOut = false ∧
      holding .closeIn = false ∧ holding .wait = false ∧ holding .ret = false :=
  ⟨rfl, rfl, rfl, rfl, rfl, rfl, rfl, rfl, rfl⟩

theorem pastLock2_simps :
    pastLock2 .add = false ∧ pastLock2 .lock1 = false ∧ pastLock2 .go1 = false ∧
      pastLock2 .go2 = false ∧ pastLock2 .lock2 = false ∧ pastLock2 .closeOut = true ∧
      pastLock2 .closeIn = true ∧ pastLock2 .wait = true ∧ pastLock2 .ret = true :=
  ⟨rfl, rfl, rfl, rfl, rfl, rfl, rfl, rfl, rfl⟩

theorem pastCloseOut_simps :
    pastCloseOut .add = false ∧ pastCloseOut .lock1 = false ∧ pastCloseOut .go1 = false ∧
      pastCloseOut .go2 = false ∧ pastCloseOut .lock2 = false ∧
      pastCloseOut .closeOut = false ∧ pastCloseOut .closeIn = true ∧
      pastCloseOut .wait = true ∧ pastCloseOut .ret = true :=
  ⟨rfl, rfl, rfl, rfl, rfl, rfl, rfl, rfl, rfl⟩

theorem pastCloseIn_simps :
    pastCloseIn .add = false ∧ pastCloseIn .lock1 = false ∧ pastCloseIn .go1 = false ∧
      pastCloseIn .go2 = false ∧ pastCloseIn .lock2 = false ∧ pastCloseIn .closeOut = false ∧
      pastCloseIn .closeIn = false ∧ pastCloseIn .wait = true ∧ pastCloseIn .ret = true :=
  ⟨rfl, rfl, rfl, rfl, rfl, rfl, rfl, rfl, rfl⟩

theorem Inv_init : Inv (Tunnel.init []) := by
  constructor <;>
  simp [Tunnel.init, spawned1_simps, spawned2_simps, holding_simps, pastLock2_simps,
    pastCloseOut_simps, pastCloseIn_simps, pending_simps, copyEnded_simps]

/-- Every step of the handler keeps the invariant. -/
theorem stepHandler_Inv (url : String) (s s' : Tunnel) (hinv : Inv s)
    (h : stepHandler url s = some s') : Inv s' := by
  obtain ⟨i1, i2, c0, c, hd, gt, co, ci, e1, e2, cf, rt, wt⟩ := hinv
  rcases stepHandler_cases url s s' h with
    ⟨hh, rfl⟩ | ⟨hh, hl, rfl⟩ | ⟨hh, rfl⟩ | ⟨hh, rfl⟩ | ⟨hh, hl, rfl⟩ | ⟨hh, rfl⟩ | ⟨hh, rfl⟩ |
    ⟨hh, hl, rfl⟩ <;>
  constructor <;>
  first
    | (simp_all [spawned1_simps, spawned2_simps, holding_simps, pastLock2_simps,
        pastCloseOut_simps, pastCloseIn_simps, pending_simps, copyEnded_simps]; done)
    | (cases hc : copyEnded s.g1 <;>
       simp_all [spawned1_simps, spawned2_simps, holding_simps, pastLock2_simps,
        pastCloseOut_simps, pastCloseIn_simps, pending_simps, copyEnded_simps])

/-- Every step of the client-to-upstream copy goroutine keeps the invariant. -/
theorem stepCopy_inToOut_Inv (url : String) (s s' : Tunnel) (hinv : Inv s)
    (h : stepCopy url .inToOut s = some s') : Inv s' := by
  obtain ⟨i1, i2, c0, c, hd, gt, co, ci, e1, e2, cf, rt, wt⟩ := hinv
  rcases stepCopy_cases url _ s s' h with
    ⟨hg, rfl⟩ | ⟨hg, hl, rfl⟩ | ⟨hg, hl, rfl⟩ | ⟨hg, hl, rfl⟩ | ⟨hg, hl, rfl⟩ <;>
  constructor <;>
  simp_all [Tunnel.g, Tunnel.setG, spawned1_simps, spawned2_simps, holding_simps,
    pastLock2_simps, pastCloseOut_simps, pastCloseIn_simps, pending_simps, copyEnded_simps]

/-- Every step of the upstream-to-client copy goroutine keeps the invariant. -/
theorem stepCopy_outToIn_Inv (url : String) (s s' : Tunnel) (hinv : Inv s)
    (h : stepCopy url .outToIn s = some s') : Inv s' := by
  obtain ⟨i1, i2, c0, c, hd, gt, co, ci, e1, e2, cf, rt, wt⟩ := hinv
  rcases stepCopy_cases url _ s s' h with
    ⟨hg, rfl⟩ | ⟨hg, hl, rfl⟩ | ⟨hg, hl, rfl⟩ | ⟨hg, hl, rfl⟩ | ⟨hg, hl, rfl⟩ <;>
  constructor <;>
  simp_all [Tunnel.g, Tunnel.setG, spawned1_simps, spawned2_simps, holding_simps,
    pastLock2_simps, pastCloseOut_simps, pastCloseIn_simps, pending_simps, copyEnded_simps]

/-- Every step keeps the invariant. -/
theorem step_Inv (url : String) (s : Tunnel) (t : Tid) (s' : Tunnel) (hinv : Inv s)
    (h : step url t s = some s') : Inv s' := by
  unfold step at h
  split at h
  · simp at h
  · cases t with
    | handler => exact stepHandler_Inv url s s' hinv h
    | inToOut => exact stepCopy_inToOut_Inv url s s' hinv h
    | outToIn => exact stepCopy_outToIn_Inv url s s' hinv h

/-- The invariant holds in every state a fresh tunnel reaches. -/
theorem run_Inv (url : String) (sched : List Tid) : Inv (run url sched (Tunnel.init [])) :=
  run_induction url Inv (step_Inv url) sched _ Inv_init

theorem step_CloseCount (url : String) (s : Tunnel) (t : Tid) (s' : Tunnel)
    (hc : CloseCount s) (h : step url t s = some s') : CloseCount s' := by
  unfold CloseCount at hc ⊢
  unfold step at h
  split at h
  · simp at h
  · cases t with
    | handler =>
      rcases stepHandler_cases url s s' h with
        ⟨hh, rfl⟩ | ⟨hh, _, rfl⟩ | ⟨hh, rfl⟩ | ⟨hh, rfl⟩ | ⟨hh, _, rfl⟩ | ⟨hh, rfl⟩ |
        ⟨hh, rfl⟩ | ⟨hh, _, rfl⟩ <;>
      simp [hh, pastCloseIn_simps, List.count_append, List.count_cons] at hc ⊢ <;>
      exact hc
    | inToOut =>
      rcases stepCopy_cases url _ s s' h with
        ⟨_, rfl⟩ | ⟨_, _, rfl⟩ | ⟨_, _, rfl⟩ | ⟨_, _, rfl⟩ | ⟨_, _, rfl⟩ <;>
      simp [Tunnel.setG, List.count_append, List.count_cons] <;>
      exact hc
    | outToIn =>
      rcases stepCopy_cases url _ s s' h with
        ⟨_, rfl⟩ | ⟨_, _, rfl⟩ | ⟨_, _, rfl⟩ | ⟨_, _, rfl⟩ | ⟨_, _, rfl⟩ <;>
      simp [Tunnel.setG, List.count_append, List.count_cons] <;>
      exact hc

/-- A fresh tunnel has called `inrwc.Close()` once when the handler is past
line 146, and not at all before. -/
theorem run_CloseCount (url : String) (sched : List Tid) :
    CloseCount (run url sched (Tunnel.init [])) :=
  run_induction url CloseCount (step_CloseCount url) sched _ (by simp [CloseCount, Tunnel.init, pastCloseIn_simps])

theorem pending_eq_zero (g : GPc) (h : pending g = 0) : g = .exited := by
  cases g <;> simp_all [pending_simps]

theorem stepHandler_prepend (url : String) (tr : List Event) (s : Tunnel) :
    stepHandler url (s.prepend tr) = (stepHandler url s).map (Tunnel.prepend tr) := by
  rcases s with ⟨h, g1, g2, locked, counter, fatal, trace⟩
  cases h <;> simp [stepHandler, Tunnel.prepend] <;> split_ifs <;> simp [Tunnel.prepend]

theorem stepCopy_prepend (url : String) (d : Dir) (tr : List Event) (s : Tunnel) :
    stepCopy url d (s.prepend tr) = (stepCopy url d s).map (Tunnel.prepend tr) := by
  rcases s with ⟨h, g1, g2, locked, counter, fatal, trace⟩
  cases d
  · cases g1 <;> simp [stepCopy, Tunnel.prepend, Tunnel.g, Tunnel.setG] <;> split_ifs <;>
      simp [Tunnel.prepend]
  · cases g2 <;> simp [stepCopy, Tunnel.prepend, Tunnel.g, Tunnel.setG] <;> split_ifs <;>
      simp [Tunnel.prepend]

theorem step_prepend (url : String) (t : Tid) (tr : List Event) (s : Tunnel) :
    step url t (s.prepend tr) = (step url t s).map (Tunnel.prepend tr) := by
  unfold step
  have hf : (s.prepend tr).fatal = s.fatal := rfl
  rw [hf]
  split_ifs
  · rfl
  · cases t
    · exact stepHandler_prepend url tr s
    · exact stepCopy_prepend url _ tr s
    · exact stepCopy_prepend url _ tr s

/-- The trace a tunnel starts with plays no part in how it runs. -/
theorem run_prepend (url : String) (sched : List Tid) (tr : List Event) (s : Tunnel) :
    run url sched (s.prepend tr) = (run url sched s).prepend tr := by
  induction sched generalizing s with
  | nil => rfl
  | cons t ts ih =>
    rw [run_cons, run_cons, step_prepend]
    cases hs : step url t s with
    | none => simpa using ih s
    | some s' => simpa using ih s'

theorem run_init (url : String) (sched : List Tid) (tr : List Event) :
    run url sched (Tunnel.init tr) = (run url sched (Tunnel.init [])).prepend tr := by
  rw [← run_prepend]
  simp [Tunnel.init, Tunnel.prepend]

/-- C5. In every interleaving, in a state in which the handler has got past
`allComplete.Wait()` both copy goroutines have run to their end (so both
`io.Copy` calls have returned, and the trace has them returning), and
`outConn.Close()` and `inrwc.Close()` have been called. -/
theorem tunnel_returns_after_both_copies (url : String) (sched : List Tid)
    (hret : (run url sched (Tunnel.init [])).h = .ret) :
    (run url sched (Tunnel.init [])).g1 = .exited ∧
    (run url sched (Tunnel.init [])).g2 = .exited ∧
    Event.copyReturned .inToOut ∈ (run url sched (Tunnel.init [])).trace ∧
    Event.copyReturned .outToIn ∈ (run url sched (Tunnel.init [])).trace ∧
    Event.closeOut ∈ (run url sched (Tunnel.init [])).trace ∧
    Event.closeIn ∈ (run url sched (Tunnel.init [])).trace := by
  have hinv := run_Inv url sched
  have h0 := hinv.ret hret
  have hc := hinv.count (by rw [hret]; decide)
  rw [h0] at hc
  have h1 : (run url sched (Tunnel.init [])).g1 = .exited := pending_eq_zero _ (by omega)
  have h2 : (run url sched (Tunnel.init [])).g2 = .exited := pending_eq_zero _ (by omega)
  refine ⟨h1, h2, hinv.ended1 ?_, hinv.ended2 ?_, hinv.closedOut ?_, hinv.closedIn ?_⟩
  · rw [h1]; rfl
  · rw [h2]; rfl
  · rw [hret]; rfl
  · rw [hret]; rfl

/-- C5, at a schedule under which the tunnel runs to its end. -/
theorem tunnel_returns_after_both_copies_witness :
    (run "/chat" orderlySchedule (Tunnel.init [])).h = .ret ∧
      (run "/chat" orderlySchedule (Tunnel.init [])).g1 = .exited ∧
      (run "/chat" orderlySchedule (Tunnel.init [])).g2 = .exited :=
  ⟨by decide,
    (tunnel_returns_after_both_copies "/chat" orderlySchedule (by decide)).1,
    (tunnel_returns_after_both_copies "/chat" orderlySchedule (by decide)).2.1⟩

/-! ## The request handler -/

theorem Flush_error (b : Writer) (e : GoError) (h : b.Flush.2 = some e) :
    b.Flush.1.err = some e ∧ b.Flush.1.out = b.out := by
  unfold Writer.Flush at h ⊢
  split
  · simp_all
  · split_ifs
    · simp_all
    · split <;> simp_all

theorem WriteString_error (b : Writer) (e : GoError) (s : String) (h : b.err = some e) :
    b.WriteString s = b := by
  simp [Writer.WriteString, h]

theorem Flush_sticky (b : Writer) (e : GoError) (h : b.err = some e) :
    b.Flush = (b, some e) := by
  simp [Writer.Flush, h]

theorem badRequestLine :
    "HTTP/1.1 " ++ fmt03d StatusBadRequest ++ " " ++ StatusText StatusBadRequest ++ "\r\n" =
      "HTTP/1.1 400 Bad Request\r\n" := by
  decide

/-- The result of `AcceptHandshake` depends on the writer only. -/
theorem AcceptHandshake_result (σ τ : World) (resp : Response) (h : σ.inbuf = τ.inbuf) :
    (AcceptHandshake σ resp).2 = (AcceptHandshake τ resp).2 ∧
      (AcceptHandshake σ resp).1.inbuf = (AcceptHandshake τ resp).1.inbuf := by
  have h1 := AcceptHandshake_inbuf σ resp
  have h2 := AcceptHandshake_inbuf τ resp
  rw [h] at h1
  rw [← h2] at h1
  simp only [Prod.mk.injEq] at h1
  exact ⟨h1.2, h1.1⟩

/-- The start of `newServerConn`: the classification leaves the local
`upgradeType` of `newServerConn` as it was, empty. -/
theorem newServerConn_eq (E : Env) (sched : List Tid) (w : Writer) (req : Request) :
    newServerConn E sched w req =
      match E.NewRequest req.Method (E.API_SERVER ++ req.URL) with
      | some e =>
        (⟨w, heapAfter req, startTrace E req false⟩, .returned (some (.external e)))
      | none =>
        if ToLower E.unicodeToLower (req.Header.Get "Upgrade") = "" ∨
            ¬ Contains (ToLower E.unicodeToLower (req.Header.Get "Connection")) "upgrade" = true
        then forwardPlain E ⟨w, heapAfter req, startTrace E req true⟩ req (outboundRequest E req)
        else upgradePath E sched ⟨w, heapAfter req, startTrace E req true⟩ req
          (outboundRequest E req) "" := by
  unfold newServerConn ReadHandshake
  simp only [World.alloc, World.Println, World.emit, World.load, heapAfter, startTrace]
  split_ifs with hc <;> cases hn : E.NewRequest req.Method (E.API_SERVER ++ req.URL) <;>
    simp_all

theorem forwardPlain_path (E : Env) (sched : List Tid) (w : Writer) (req : Request)
    (hn : E.NewRequest req.Method (E.API_SERVER ++ req.URL) = none)
    (hu : ¬ upgradeCondition E req) :
    ∃ tr b o,
      forwardPlain E ⟨w, heapAfter req, startTrace E req true⟩ req (outboundRequest E req) =
        (⟨b, heapAfter req, tr⟩, o) ∧ Path E sched w req tr b o := by
  unfold forwardPlain
  cases hd : E.Do (outboundRequest E req) with
  | error e =>
    exact ⟨_, _, _, rfl, Path.doFails e hn hu hd⟩
  | ok resp =>
    exact ⟨_, _, _, rfl, Path.forwarded resp hn hu hd⟩

theorem tunnel_eq (sched : List Tid) (σ : World) (req : Request) :
    tunnel sched σ req =
      (⟨σ.inbuf, σ.heap, σ.trace ++ (run req.URL sched (Tunnel.init [])).trace⟩,
        if (run req.URL sched (Tunnel.init [])).fatal = true then .fatal
        else if (run req.URL sched (Tunnel.init [])).h = .ret then .returned none
        else .running) := by
  unfold tunnel
  rw [run_init]
  rfl

theorem upgradePath_path (E : Env) (sched : List Tid) (w : Writer) (req : Request)
    (hn : E.NewRequest req.Method (E.API_SERVER ++ req.URL) = none)
    (hu : upgradeCondition E req) :
    ∃ tr b o,
      upgradePath E sched ⟨w, heapAfter req, startTrace E req true⟩ req (outboundRequest E req)
          "" = (⟨b, heapAfter req, tr⟩, o) ∧ Path E sched w req tr b o := by
  unfold upgradePath
  simp only [World.Println, World.emit]
  cases hr : E.RoundTrip "" (outboundRequest E req) with
  | error e =>
    exact ⟨_, _, _, rfl, Path.roundTripFails e hn hu hr⟩
  | ok resp =>
    simp only
    cases hc : E.NewConnection resp with
    | some e =>
      refine ⟨_, _, _, rfl, ?_⟩
      simpa using Path.newConnectionFails resp e hn hu hr hc
    | none =>
      simp only
      generalize hσ : (⟨w, heapAfter req, _⟩ : World) = σ
      have hw : σ.inbuf = (⟨w, [], []⟩ : World).inbuf := by rw [← hσ]
      have htr : σ.trace = startTrace E req true ++ upgradeTrace E req "" := by
        rw [← hσ]; simp [upgradeTrace]
      have hheap : σ.heap = heapAfter req := by rw [← hσ]
      obtain ⟨hres, hbuf⟩ := AcceptHandshake_result σ ⟨w, [], []⟩ resp hw
      have hat := AcceptHandshake_trace σ resp
      have hah := AcceptHandshake_heap σ resp
      cases ha : (AcceptHandshake ⟨w, [], []⟩ resp).2 with
      | some err =>
        rw [ha] at hres
        have hsplit : AcceptHandshake σ resp = ((AcceptHandshake σ resp).1, some err) := by
          rw [← hres]
        rw [hsplit]
        simp only
        have herr : (AcceptHandshake σ resp).1.inbuf.err = some err := by
          have h1 := AcceptHandshake_inbuf σ resp
          rw [hres] at h1
          have h2 := Flush_error _ err (congrArg Prod.snd h1).symm
          rw [← (congrArg Prod.fst h1)] at h2
          exact h2.1
        refine ⟨_, _, _, ?_, Path.acceptFails resp err hn hu hr hc ha⟩
        rw [hbuf] at herr
        simp [World.WriteString, World.Flush, hat, hres, htr, hah, hheap, hbuf, badRequestLine,
          WriteString_error _ err _ herr, Flush_sticky _ err herr]
      | none =>
        rw [ha] at hres
        have hsplit : AcceptHandshake σ resp = ((AcceptHandshake σ resp).1, none) := by
          rw [← hres]
        rw [hsplit]
        simp only [tunnel_eq]
        refine ⟨_, _, _, ?_, Path.tunnelled resp hn hu hr hc ha⟩
        simp [hat, hres, htr, hheap, hah, hbuf]

theorem newServerConn_path (E : Env) (sched : List Tid) (w : Writer) (req : Request) :
    ∃ tr b o, newServerConn E sched w req = (⟨b, heapAfter req, tr⟩, o) ∧
      Path E sched w req tr b o := by
  rw [newServerConn_eq]
  cases hn : E.NewRequest req.Method (E.API_SERVER ++ req.URL) with
  | some e => exact ⟨_, _, _, rfl, Path.newRequestFails e hn⟩
  | none =>
    simp only
    split_ifs with hc
    · exact forwardPlain_path E sched w req hn (by rw [upgradeCondition_iff]; exact not_not.2 hc)
    · exact upgradePath_path E sched w req hn (by rw [upgradeCondition_iff]; exact hc)

theorem mem_acceptWrites (resp : Response) (e : Event) (h : e ∈ acceptWrites resp) :
    ∃ s, e = .bufWrite s := by
  rw [acceptWrites_eq, List.mem_map] at h
  obtain ⟨s, _, rfl⟩ := h
  exact ⟨s, rfl⟩

/-- An event that is not in the first part of a list occurs in the second. -/
theorem split_of_not_mem {α : Type} (A B pre post : List α) (e : α)
    (h : A ++ B = pre ++ e :: post) (hA : e ∉ A) :
    ∃ B1, pre = A ++ B1 ∧ B = B1 ++ e :: post := by
  rcases List.append_eq_append_iff.1 h with ⟨a', h1, h2⟩ | ⟨c', h1, h2⟩
  · exact ⟨a', h1, h2⟩
  · cases c' with
    | nil =>
      refine ⟨[], by simpa using h1.symm, by simpa using h2.symm⟩
    | cons x c' =>
      exfalso
      simp only [List.cons_append, List.cons.injEq] at h2
      apply hA
      rw [h1, ← h2.1]
      simp

theorem run_tunnelEvents (url : String) (sched : List Tid) :
    ∀ e ∈ (run url sched (Tunnel.init [])).trace, tunnelEvent e = true := by
  obtain ⟨ev, h1, h2⟩ := run_trace url sched (Tunnel.init [])
  intro e he
  rw [h1] at he
  simp only [Tunnel.init, List.nil_append] at he
  exact h2 e he

/-- The result of `newServerConn`, given the way it went. -/
theorem newServerConn_path' (E : Env) (sched : List Tid) (w : Writer) (req : Request) :
    Path E sched w req (newServerConn E sched w req).1.trace
      (newServerConn E sched w req).1.inbuf (newServerConn E sched w req).2 := by
  obtain ⟨tr, b, o, heq, hp⟩ := newServerConn_path E sched w req
  rw [heq]
  exact hp

/-- C2. When the outbound request is built, `newServerConn` calls
`http.DefaultClient.Do` and not the upgrade round tripper exactly when the
request does not satisfy the upgrade condition; a request that satisfies it
goes to the upgrade round tripper and never to `http.DefaultClient.Do`; and for
a request that does not, nothing is written to the client's buffered writer by
the handler itself (only the upstream's response, if there is one) and the
error returned is nil or the error of `Do`, never the `ErrNotUpgrade` or the
400 of the classification. -/
theorem newServerConn_routes (E : Env) (sched : List Tid) (w : Writer) (req : Request)
    (hn : E.NewRequest req.Method (E.API_SERVER ++ req.URL) = none) :
    (((∃ ok, Event.clientDo (outboundRequest E req) ok ∈
          (newServerConn E sched w req).1.trace) ∧
        ∀ r ok, Event.roundTrip r ok ∉ (newServerConn E sched w req).1.trace) ↔
      ¬ upgradeCondition E req) ∧
    (upgradeCondition E req →
      (∃ ok, Event.roundTrip (outboundRequest E req) ok ∈
          (newServerConn E sched w req).1.trace) ∧
        ∀ r ok, Event.clientDo r ok ∉ (newServerConn E sched w req).1.trace) ∧
    (¬ upgradeCondition E req →
      (∀ s, Event.bufWrite s ∉ (newServerConn E sched w req).1.trace) ∧
      ((∃ resp, E.Do (outboundRequest E req) = .ok resp ∧
          (newServerConn E sched w req).2 = .returned none) ∨
        ∃ e, E.Do (outboundRequest E req) = .error e ∧
          (newServerConn E sched w req).2 = .returned (some (.external e)))) := by
  have hp := newServerConn_path' E sched w req
  generalize (newServerConn E sched w req).1.trace = tr at hp ⊢
  generalize (newServerConn E sched w req).1.inbuf = b at hp
  generalize (newServerConn E sched w req).2 = o at hp ⊢
  have htun : ∀ e ∈ (run req.URL sched (Tunnel.init [])).trace, tunnelEvent e = true :=
    run_tunnelEvents req.URL sched
  have hacc := mem_acceptWrites
  cases hp with
  | newRequestFails e hn' => rw [hn] at hn'; cases hn'
  | doFails e _ hu hd =>
    simp [hu, hd, startTrace]
  | forwarded resp _ hu hd =>
    simp [hu, hd, startTrace]
  | roundTripFails e _ hu hr =>
    simp [hu, startTrace]
  | newConnectionFails resp e _ hu hr hc =>
    simp [hu, startTrace]
  | acceptFails resp err _ hu hr hc ha =>
    have h1 : ∀ r ok, Event.clientDo r ok ∉ acceptWrites resp := by
      intro r ok hmem
      obtain ⟨s, hs⟩ := hacc resp _ hmem
      cases hs
    simp [hu, startTrace, upgradeTrace, h1]
  | tunnelled resp _ hu hr hc ha =>
    have h1 : ∀ r ok, Event.clientDo r ok ∉ acceptWrites resp := by
      intro r ok hmem
      obtain ⟨s, hs⟩ := hacc resp _ hmem
      cases hs
    have h2 : ∀ r ok, Event.clientDo r ok ∉ (run req.URL sched (Tunnel.init [])).trace := by
      intro r ok hmem
      have := htun _ hmem
      simp [tunnelEvent] at this
    simp [hu, startTrace, upgradeTrace, h1, h2]

/-- C2, at a request without upgrade headers. -/
theorem newServerConn_routes_witness :
    (∀ s, Event.bufWrite s ∉ (newServerConn sampleEnv [] goodWriter plainRequest).1.trace) ∧
      ((∃ resp, sampleEnv.Do (outboundRequest sampleEnv plainRequest) = .ok resp ∧
          (newServerConn sampleEnv [] goodWriter plainRequest).2 = .returned none) ∨
        ∃ e, sampleEnv.Do (outboundRequest sampleEnv plainRequest) = .error e ∧
          (newServerConn sampleEnv [] goodWriter plainRequest).2 =
            .returned (some (.external e))) :=
  (newServerConn_routes sampleEnv [] goodWriter plainRequest rfl).2.2
    (fun h => h.1 (by decide))

theorem not_mem_acceptWrites (resp : Response) (e : Event)
    (h : ∀ s, e ≠ .bufWrite s) : e ∉ acceptWrites resp := by
  intro hmem
  obtain ⟨s, hs⟩ := mem_acceptWrites resp e hmem
  exact h s hs

theorem not_mem_tunnel (url : String) (sched : List Tid) (e : Event)
    (h : tunnelEvent e = false) : e ∉ (run url sched (Tunnel.init [])).trace := by
  intro hmem
  have := run_tunnelEvents url sched e hmem
  rw [h] at this
  cases this

/-- C7. In the trace of `newServerConn`, every write on the client's buffered
writer comes after a successful upgrade round trip and a successful
`NewConnection`; and every start of a copy goroutine comes after the complete
switching-protocols response has been written and flushed without error, by an
`AcceptHandshake` that returns nil. -/
theorem newServerConn_handshake_order (E : Env) (sched : List Tid) (w : Writer) (req : Request) :
    (∀ pre s post, (newServerConn E sched w req).1.trace = pre ++ Event.bufWrite s :: post →
      Event.roundTrip (outboundRequest E req) true ∈ pre ∧ Event.newConnection true ∈ pre) ∧
    (∀ pre d post, (newServerConn E sched w req).1.trace = pre ++ Event.go d :: post →
      ∃ resp, E.RoundTrip "" (outboundRequest E req) = .ok resp ∧
        (AcceptHandshake ⟨w, [], []⟩ resp).2 = none ∧
        ∃ pre0 pre1, pre = pre0 ++ (acceptWrites resp ++ [.bufFlush none]) ++ pre1) := by
  have hp := newServerConn_path' E sched w req
  generalize (newServerConn E sched w req).1.trace = tr at hp ⊢
  generalize (newServerConn E sched w req).1.inbuf = b at hp
  generalize (newServerConn E sched w req).2 = o at hp
  have hgoA : ∀ resp d, Event.go d ∉ acceptWrites resp := fun resp d =>
    not_mem_acceptWrites resp _ (by intro s hs; cases hs)
  have hwrT : ∀ s, Event.bufWrite s ∉ (run req.URL sched (Tunnel.init [])).trace := fun s =>
    not_mem_tunnel _ _ _ rfl
  cases hp with
  | newRequestFails e hn =>
    refine ⟨fun pre s post h => ?_, fun pre d post h => ?_⟩
    · have : Event.bufWrite s ∈ startTrace E req false := by rw [h]; simp
      simp [startTrace] at this
    · have : Event.go d ∈ startTrace E req false := by rw [h]; simp
      simp [startTrace] at this
  | doFails e hn hu hd =>
    refine ⟨fun pre s post h => ?_, fun pre d post h => ?_⟩
    · have := congrArg (fun l => decide (Event.bufWrite s ∈ l)) h
      simp [startTrace] at this
    · have := congrArg (fun l => decide (Event.go d ∈ l)) h
      simp [startTrace] at this
  | forwarded resp hn hu hd =>
    refine ⟨fun pre s post h => ?_, fun pre d post h => ?_⟩
    · have := congrArg (fun l => decide (Event.bufWrite s ∈ l)) h
      simp [startTrace] at this
    · have := congrArg (fun l => decide (Event.go d ∈ l)) h
      simp [startTrace] at this
  | roundTripFails e hn hu hr =>
    refine ⟨fun pre s post h => ?_, fun pre d post h => ?_⟩
    · have := congrArg (fun l => decide (Event.bufWrite s ∈ l)) h
      simp [startTrace] at this
    · have := congrArg (fun l => decide (Event.go d ∈ l)) h
      simp [startTrace] at this
  | newConnectionFails resp e hn hu hr hc =>
    refine ⟨fun pre s post h => ?_, fun pre d post h => ?_⟩
    · have := congrArg (fun l => decide (Event.bufWrite s ∈ l)) h
      simp [startTrace] at this
    · have := congrArg (fun l => decide (Event.go d ∈ l)) h
      simp [startTrace] at this
  | acceptFails resp err hn hu hr hc ha =>
    refine ⟨fun pre s post h => ?_, fun pre d post h => ?_⟩
    · rw [List.append_assoc (startTrace E req true ++ upgradeTrace E req "")] at h
      obtain ⟨B1, hpre, -⟩ := split_of_not_mem _ _ pre post _ h
        (by simp [startTrace, upgradeTrace])
      rw [hpre]
      simp [upgradeTrace]
    · have := congrArg (fun l => decide (Event.go d ∈ l)) h
      simp [startTrace, upgradeTrace, hgoA] at this
  | tunnelled resp hn hu hr hc ha =>
    refine ⟨fun pre s post h => ?_, fun pre d post h => ?_⟩
    · rw [List.append_assoc, List.append_assoc
        (startTrace E req true ++ upgradeTrace E req "")] at h
      obtain ⟨B1, hpre, -⟩ := split_of_not_mem _ _ pre post _ h
        (by simp [startTrace, upgradeTrace])
      rw [hpre]
      simp [upgradeTrace]
    · refine ⟨resp, hr, ha, ?_⟩
      obtain ⟨B1, hpre, -⟩ := split_of_not_mem _ _ pre post _ h
        (by simp [startTrace, upgradeTrace, hgoA])
      refine ⟨startTrace E req true ++ upgradeTrace E req "",
        .println ("Inbound upgrade accepted. url:" ++ req.URL) :: B1, ?_⟩
      rw [hpre]
      simp

/-- C7, at the first write of the spec's scenario. -/
theorem newServerConn_handshake_order_witness :
    Event.roundTrip (outboundRequest sampleEnv upgradeRequest) true ∈
        List.take 8 (newServerConn sampleEnv orderlySchedule goodWriter upgradeRequest).1.trace ∧
      Event.newConnection true ∈
        List.take 8 (newServerConn sampleEnv orderlySchedule goodWriter upgradeRequest).1.trace :=
  (newServerConn_handshake_order sampleEnv orderlySchedule goodWriter upgradeRequest).1
    (List.take 8 (newServerConn sampleEnv orderlySchedule goodWriter upgradeRequest).1.trace)
    "HTTP/1.1 101 Switching Protocols\r\n"
    (List.drop 9 (newServerConn sampleEnv orderlySchedule goodWriter upgradeRequest).1.trace)
    (by decide)

theorem serveUpgrade_returned (E : Env) (sched : List Tid) (w : Writer) (req : Request)
    (err : Option GoError) (h : (newServerConn E sched w req).2 = .returned err) :
    serveUpgrade E sched (.ok w) req =
      (.hijack true :: (newServerConn E sched w req).1.trace ++ [.closeIn], .returned) := by
  unfold serveUpgrade
  simp only
  generalize newServerConn E sched w req = r at h ⊢
  obtain ⟨σ, o⟩ := r
  simp only at h
  subst h
  rfl

/-- The calls `newServerConn` makes when the request is an upgrade, the upgrade
round trip and `NewConnection` succeed and `AcceptHandshake` returns an error:
it returns that error; after the calls of `AcceptHandshake` it calls
`Fprintf` with `HTTP/1.1 400 Bad Request`, `WriteString` with an empty line and
`Flush` on the client's buffered writer, and the flush returns the same error;
it starts no copy goroutine; and `serveUpgrade` then closes the client
connection and returns. What the writer does with these calls is
`accept_failure_writer_unchanged`. -/
theorem newServerConn_accept_failure (E : Env) (sched : List Tid) (w : Writer) (req : Request)
    (resp : Response) (err : GoError)
    (hn : E.NewRequest req.Method (E.API_SERVER ++ req.URL) = none)
    (hu : upgradeCondition E req)
    (hr : E.RoundTrip "" (outboundRequest E req) = .ok resp)
    (hc : E.NewConnection resp = none)
    (ha : (AcceptHandshake ⟨w, [], []⟩ resp).2 = some err) :
    (newServerConn E sched w req).2 = .returned (some err) ∧
    (newServerConn E sched w req).1.trace =
      startTrace E req true ++ upgradeTrace E req "" ++ acceptWrites resp ++
        [.bufFlush (some err), .bufWrite "HTTP/1.1 400 Bad Request\r\n", .bufWrite "\r\n",
         .bufFlush (some err)] ∧
    (∀ d, Event.go d ∉ (newServerConn E sched w req).1.trace) ∧
    serveUpgrade E sched (.ok w) req =
      (.hijack true :: (newServerConn E sched w req).1.trace ++ [.closeIn], .returned) := by
  have hp := newServerConn_path' E sched w req
  have hs := serveUpgrade_returned E sched w req
  generalize (newServerConn E sched w req).1.trace = tr at hp hs ⊢
  generalize (newServerConn E sched w req).1.inbuf = b at hp
  generalize (newServerConn E sched w req).2 = o at hp hs ⊢
  cases hp with
  | newRequestFails e hn' => rw [hn] at hn'; cases hn'
  | doFails e _ hu' hd => exact absurd hu hu'
  | forwarded resp' _ hu' hd => exact absurd hu hu'
  | roundTripFails e _ _ hr' => rw [hr] at hr'; cases hr'
  | newConnectionFails resp' e _ _ hr' hc' =>
    rw [hr] at hr'
    cases hr'
    rw [hc] at hc'
    cases hc'
  | acceptFails resp' err' _ _ hr' hc' ha' =>
    rw [hr] at hr'
    cases hr'
    rw [ha] at ha'
    cases ha'
    refine ⟨rfl, rfl, ?_, hs _ rfl⟩
    intro d
    have := not_mem_acceptWrites resp (Event.go d) (by intro s hs; cases hs)
    simp [startTrace, upgradeTrace, this]
  | tunnelled resp' _ _ hr' hc' ha' =>
    rw [hr] at hr'
    cases hr'
    rw [ha] at ha'
    cases ha'

/-- The calls after a failed `AcceptHandshake`, at a client connection whose
`Write` fails. -/
theorem newServerConn_accept_failure_witness :
    (newServerConn sampleEnv orderlySchedule brokenWriter upgradeRequest).2 =
      .returned (some (.external "broken pipe")) :=
  (newServerConn_accept_failure sampleEnv orderlySchedule brokenWriter upgradeRequest switchingResponse
    (.external "broken pipe") rfl
    ⟨by decide, [], [], by decide⟩ rfl rfl (by decide)).1

/-- C9. When `http.NewRequest` fails, or the request is plain and
`http.DefaultClient.Do` fails, or the request is an upgrade and the round trip
or `NewConnection` fails, `newServerConn` returns that error; the client's
buffered writer is as it was, no call writes to it or flushes it, and no copy
goroutine is started; `serveUpgrade` does not panic, closes the client
connection, once, and returns. -/
theorem newServerConn_failure_writes_nothing (E : Env) (sched : List Tid) (w : Writer) (req : Request)
    (e : String)
    (h : E.NewRequest req.Method (E.API_SERVER ++ req.URL) = some e ∨
      (E.NewRequest req.Method (E.API_SERVER ++ req.URL) = none ∧
        ((¬ upgradeCondition E req ∧ E.Do (outboundRequest E req) = .error e) ∨
         (upgradeCondition E req ∧ E.RoundTrip "" (outboundRequest E req) = .error e) ∨
         (upgradeCondition E req ∧ ∃ resp, E.RoundTrip "" (outboundRequest E req) = .ok resp ∧
            E.NewConnection resp = some e)))) :
    (newServerConn E sched w req).2 = .returned (some (.external e)) ∧
    (newServerConn E sched w req).1.inbuf = w ∧
    (∀ ev ∈ (newServerConn E sched w req).1.trace,
      clientWrite ev = false ∧ ∀ d, ev ≠ Event.go d) ∧
    serveUpgrade E sched (.ok w) req =
      (.hijack true :: (newServerConn E sched w req).1.trace ++ [.closeIn], .returned) ∧
    (serveUpgrade E sched (.ok w) req).1.count Event.closeIn = 1 := by
  have hp := newServerConn_path' E sched w req
  have hs := serveUpgrade_returned E sched w req
  have hsu : ∀ tr : List Event, (∀ ev ∈ tr, ev ≠ Event.closeIn) →
      (Event.hijack true :: tr ++ [Event.closeIn]).count Event.closeIn = 1 := by
    intro tr htr
    have h0 : tr.count Event.closeIn = 0 := by
      rw [List.count_eq_zero]
      intro hmem
      exact htr _ hmem rfl
    simp [List.count_append, List.count_cons, h0]
  generalize (newServerConn E sched w req).1.trace = tr at hp hs ⊢
  generalize (newServerConn E sched w req).1.inbuf = b at hp ⊢
  generalize (newServerConn E sched w req).2 = o at hp hs ⊢
  cases hp with
  | newRequestFails e' hn =>
    have he : e' = e := by
      rcases h with h | ⟨h, -⟩
      · rw [hn] at h; exact Option.some.inj h
      · rw [hn] at h; cases h
    subst he
    refine ⟨rfl, rfl, ?_, hs _ rfl, ?_⟩
    · simp [startTrace, clientWrite]
    · rw [hs _ rfl]
      exact hsu _ (by simp [startTrace])
  | doFails e' hn hu hd =>
    have he : e' = e := by
      rcases h with h | ⟨-, ⟨-, h⟩ | ⟨h, -⟩ | ⟨h, -⟩⟩
      · rw [hn] at h; cases h
      · rw [hd] at h; exact Except.error.inj h
      · exact absurd h hu
      · exact absurd h hu
    subst he
    refine ⟨rfl, rfl, ?_, hs _ rfl, ?_⟩
    · simp [startTrace, clientWrite]
    · rw [hs _ rfl]
      exact hsu _ (by simp [startTrace])
  | forwarded resp hn hu hd =>
    exfalso
    rcases h with h | ⟨-, ⟨-, h⟩ | ⟨h, -⟩ | ⟨h, -⟩⟩
    · rw [hn] at h; cases h
    · rw [hd] at h; cases h
    · exact hu h
    · exact hu h
  | roundTripFails e' hn hu hr =>
    have he : e' = e := by
      rcases h with h | ⟨-, ⟨h, -⟩ | ⟨-, h⟩ | ⟨-, resp, h, -⟩⟩
      · rw [hn] at h; cases h
      · exact absurd hu h
      · rw [hr] at h; exact Except.error.inj h
      · rw [hr] at h; cases h
    subst he
    refine ⟨rfl, rfl, ?_, hs _ rfl, ?_⟩
    · simp [startTrace, clientWrite]
    · rw [hs _ rfl]
      exact hsu _ (by simp [startTrace])
  | newConnectionFails resp e' hn hu hr hc =>
    have he : e' = e := by
      rcases h with h | ⟨-, ⟨h, -⟩ | ⟨-, h⟩ | ⟨-, resp', h, h'⟩⟩
      · rw [hn] at h; cases h
      · exact absurd hu h
      · rw [hr] at h; cases h
      · rw [hr] at h
        cases h
        rw [hc] at h'
        exact Option.some.inj h'
    subst he
    refine ⟨rfl, rfl, ?_, hs _ rfl, ?_⟩
    · simp [startTrace, clientWrite]
    · rw [hs _ rfl]
      exact hsu _ (by simp [startTrace])
  | acceptFails resp err hn hu hr hc ha =>
    exfalso
    rcases h with h | ⟨-, ⟨h, -⟩ | ⟨-, h⟩ | ⟨-, resp', h, h'⟩⟩
    · rw [hn] at h; cases h
    · exact h hu
    · rw [hr] at h; cases h
    · rw [hr] at h
      cases h
      rw [hc] at h'
      cases h'
  | tunnelled resp hn hu hr hc ha =>
    exfalso
    rcases h with h | ⟨-, ⟨h, -⟩ | ⟨-, h⟩ | ⟨-, resp', h, h'⟩⟩
    · rw [hn] at h; cases h
    · exact h hu
    · rw [hr] at h; cases h
    · rw [hr] at h
      cases h
      rw [hc] at h'
      cases h'

/-- C9, at a plain request whose upstream cannot be reached. -/
theorem newServerConn_failure_writes_nothing_witness :
    (newServerConn unreachableEnv [] goodWriter plainRequest).2 =
        .returned (some (.external "connection refused")) ∧
      (newServerConn unreachableEnv [] goodWriter plainRequest).1.inbuf = goodWriter :=
  ⟨(newServerConn_failure_writes_nothing unreachableEnv [] goodWriter plainRequest "connection refused"
      (Or.inr ⟨rfl, Or.inl ⟨fun h => h.1 (by decide), rfl⟩⟩)).1,
   (newServerConn_failure_writes_nothing unreachableEnv [] goodWriter plainRequest "connection refused"
      (Or.inr ⟨rfl, Or.inl ⟨fun h => h.1 (by decide), rfl⟩⟩)).2.1⟩

theorem serveUpgrade_exit (E : Env) (sched : List Tid) (w : Writer) (req : Request)
    (h : (serveUpgrade E sched (.ok w) req).2 = .returned) :
    ∃ err, (newServerConn E sched w req).2 = .returned err := by
  unfold serveUpgrade at h
  simp only at h
  generalize newServerConn E sched w req = r at h ⊢
  obtain ⟨σ, o⟩ := r
  cases o with
  | returned err => exact ⟨err, rfl⟩
  | fatal => simp at h
  | running => simp at h

/-- C4 as stated fails: on a completed tunnel `Close` is called twice on the
client connection, at line 146 and by the deferred call. -/
theorem serveUpgrade_tunnel_closes_twice :
    (serveUpgrade sampleEnv orderlySchedule (.ok goodWriter) upgradeRequest).2 = .returned ∧
      (serveUpgrade sampleEnv orderlySchedule (.ok goodWriter) upgradeRequest).1.count
          Event.closeIn = 2 ∧
      ¬ (serveUpgrade sampleEnv orderlySchedule (.ok goodWriter) upgradeRequest).1.count
          Event.closeIn = 1 := by
  decide

/-- C4, amended. Whenever `serveUpgrade` returns after a successful hijack, its
last call is the deferred `Close` of the client connection; that is the only
`Close` of it on every path but a completed tunnel, and on a completed tunnel
(the path on which `allComplete.Wait()` returns) `Close` is called exactly
twice, at line 146 and by the deferred call. -/
theorem serveUpgrade_close_calls (E : Env) (sched : List Tid) (w : Writer) (req : Request)
    (hret : (serveUpgrade E sched (.ok w) req).2 = .returned) :
    (serveUpgrade E sched (.ok w) req).1.getLast? = some Event.closeIn ∧
    (serveUpgrade E sched (.ok w) req).1.count Event.closeIn =
      if Event.wgWait ∈ (serveUpgrade E sched (.ok w) req).1 then 2 else 1 := by
  obtain ⟨err, herr⟩ := serveUpgrade_exit E sched w req hret
  rw [serveUpgrade_returned E sched w req err herr]
  have hp := newServerConn_path' E sched w req
  generalize (newServerConn E sched w req).1.trace = tr at hp ⊢
  generalize (newServerConn E sched w req).1.inbuf = b at hp
  rw [herr] at hp
  have hlast : (Event.hijack true :: tr ++ [Event.closeIn]).getLast? = some Event.closeIn := by
    rw [show Event.hijack true :: tr ++ [Event.closeIn] =
      (Event.hijack true :: tr) ++ [Event.closeIn] from rfl, List.getLast?_append]
    rfl
  refine ⟨hlast, ?_⟩
  have hcA : ∀ resp, (acceptWrites resp).count Event.closeIn = 0 := fun resp =>
    List.count_eq_zero.2 (not_mem_acceptWrites resp _ (by intro s hs; cases hs))
  have hwA : ∀ resp, Event.wgWait ∉ acceptWrites resp := fun resp =>
    not_mem_acceptWrites resp _ (by intro s hs; cases hs)
  generalize ho : Outcome.returned err = o at hp
  cases hp with
  | newRequestFails e hn =>
    simp [startTrace, List.count_cons, List.count_append]
  | doFails e hn hu hd =>
    simp [startTrace, List.count_cons, List.count_append]
  | forwarded resp hn hu hd =>
    simp [startTrace, List.count_cons, List.count_append]
  | roundTripFails e hn hu hr =>
    simp [startTrace, List.count_cons, List.count_append]
  | newConnectionFails resp e hn hu hr hc =>
    simp [startTrace, List.count_cons, List.count_append]
  | acceptFails resp err' hn hu hr hc ha =>
    simp [startTrace, upgradeTrace, List.count_cons, List.count_append, hcA, hwA]
  | tunnelled resp hn hu hr hc ha =>
    have hfat : (run req.URL sched (Tunnel.init [])).fatal ≠ true := by
      intro hf
      rw [if_pos hf] at ho
      cases ho
    rw [if_neg hfat] at ho
    have hh : (run req.URL sched (Tunnel.init [])).h = .ret := by
      by_contra hne
      rw [if_neg hne] at ho
      cases ho
    have hcount := run_CloseCount req.URL sched
    unfold CloseCount at hcount
    rw [hh] at hcount
    have hwait := (run_Inv req.URL sched).waited hh
    simp [startTrace, upgradeTrace, List.count_cons, List.count_append, hcA, hcount, hwait,
      pastCloseIn_simps]

/-- C4 amended, at a plain request: the deferred call is the last call. -/
theorem serveUpgrade_close_calls_witness :
    (serveUpgrade sampleEnv [] (.ok goodWriter) plainRequest).2 = .returned ∧
      (serveUpgrade sampleEnv [] (.ok goodWriter) plainRequest).1.getLast? =
        some Event.closeIn ∧
      (serveUpgrade sampleEnv [] (.ok goodWriter) plainRequest).1.count Event.closeIn =
        if Event.wgWait ∈ (serveUpgrade sampleEnv [] (.ok goodWriter) plainRequest).1
        then 2 else 1 :=
  ⟨by decide, serveUpgrade_close_calls sampleEnv [] goodWriter plainRequest (by decide)⟩

theorem foldl_Writer_out (b : Writer) (ls : List String) :
    (ls.foldl Writer.WriteString b).out = b.out := by
  cases he : b.err with
  | none => rw [foldl_Writer_ok b ls he]
  | some e => rw [foldl_Writer_err b ls e he]

/-- When `AcceptHandshake` fails, the connection has accepted nothing: neither
the switching-protocols response nor the `400 Bad Request` that follows it,
because the error of the buffered writer is sticky. -/
theorem accept_failure_delivers_nothing (E : Env) (sched : List Tid) (w : Writer)
    (req : Request) (resp : Response) (err : GoError)
    (hn : E.NewRequest req.Method (E.API_SERVER ++ req.URL) = none)
    (hu : upgradeCondition E req)
    (hr : E.RoundTrip "" (outboundRequest E req) = .ok resp)
    (hc : E.NewConnection resp = none)
    (ha : (AcceptHandshake ⟨w, [], []⟩ resp).2 = some err) :
    (newServerConn E sched w req).1.inbuf.out = w.out := by
  have hp := newServerConn_path' E sched w req
  generalize (newServerConn E sched w req).1.trace = tr at hp
  generalize (newServerConn E sched w req).1.inbuf = b at hp ⊢
  generalize (newServerConn E sched w req).2 = o at hp
  have hout : (AcceptHandshake ⟨w, [], []⟩ resp).1.inbuf.out = w.out := by
    have h1 := AcceptHandshake_inbuf ⟨w, [], []⟩ resp
    have h2 := Flush_error _ err ((congrArg Prod.snd h1).symm.trans ha)
    rw [← congrArg Prod.fst h1] at h2
    rw [h2.2, foldl_Writer_out]
  cases hp with
  | newRequestFails e hn' => cases hn.symm.trans hn'
  | doFails e _ hu' hd => exact absurd hu hu'
  | forwarded resp' _ hu' hd => exact absurd hu hu'
  | roundTripFails e _ _ hr' => cases hr.symm.trans hr'
  | newConnectionFails resp' e _ _ hr' hc' =>
    cases hr.symm.trans hr'
    cases hc.symm.trans hc'
  | acceptFails resp' err' _ _ hr' hc' ha' =>
    rw [hr] at hr'
    cases hr'
    exact hout
  | tunnelled resp' _ _ hr' hc' ha' =>
    rw [hr] at hr'
    cases hr'
    rw [ha] at ha'
    cases ha'

/-- When `AcceptHandshake` fails, the calls of lines 115-117 change nothing:
the client's buffered writer after `newServerConn` is the writer
`AcceptHandshake` left, its error is the error returned, and the connection
has accepted nothing. -/
theorem accept_failure_writer_unchanged (E : Env) (sched : List Tid) (w : Writer)
    (req : Request) (resp : Response) (err : GoError)
    (hn : E.NewRequest req.Method (E.API_SERVER ++ req.URL) = none)
    (hu : upgradeCondition E req)
    (hr : E.RoundTrip "" (outboundRequest E req) = .ok resp)
    (hc : E.NewConnection resp = none)
    (ha : (AcceptHandshake ⟨w, [], []⟩ resp).2 = some err) :
    (newServerConn E sched w req).1.inbuf = (AcceptHandshake ⟨w, [], []⟩ resp).1.inbuf ∧
    (newServerConn E sched w req).1.inbuf.err = some err ∧
    (newServerConn E sched w req).1.inbuf.out = w.out := by
  have hout := accept_failure_delivers_nothing E sched w req resp err hn hu hr hc ha
  have hp := newServerConn_path' E sched w req
  generalize (newServerConn E sched w req).1.trace = tr at hp
  generalize (newServerConn E sched w req).1.inbuf = b at hp hout ⊢
  generalize (newServerConn E sched w req).2 = o at hp
  have herr : (AcceptHandshake ⟨w, [], []⟩ resp).1.inbuf.err = some err := by
    have h1 := AcceptHandshake_inbuf ⟨w, [], []⟩ resp
    have h2 := Flush_error _ err ((congrArg Prod.snd h1).symm.trans ha)
    rw [← congrArg Prod.fst h1] at h2
    exact h2.1
  cases hp with
  | newRequestFails e hn' => cases hn.symm.trans hn'
  | doFails e _ hu' hd => exact absurd hu hu'
  | forwarded resp' _ hu' hd => exact absurd hu hu'
  | roundTripFails e _ _ hr' => cases hr.symm.trans hr'
  | newConnectionFails resp' e _ _ hr' hc' =>
    cases hr.symm.trans hr'
    cases hc.symm.trans hc'
  | acceptFails resp' err' _ _ hr' hc' ha' =>
    cases hr.symm.trans hr'
    exact ⟨rfl, herr, hout⟩
  | tunnelled resp' _ _ hr' hc' ha' =>
    cases hr.symm.trans hr'
    cases ha.symm.trans ha'

/-- C8 fails on the code. For the upgrade request of the spec's scenario on a
client connection whose `Write` fails, the upstream upgrade succeeds and
`AcceptHandshake` returns the error of its `Flush`. `newServerConn` returns
that error, starts no copy goroutine, and `serveUpgrade` closes the
connection; it does call `Fprintf`, `WriteString` and `Flush` with the
`400 Bad Request` response, but the buffered writer, whose error is sticky,
takes none of it: the writer is as `AcceptHandshake` left it, holding only the
switching-protocols response it could not flush, and the connection has
received nothing. -/
theorem newServerConn_bad_request_not_written :
    (AcceptHandshake ⟨brokenWriter, [], []⟩ switchingResponse).2 =
        some (.external "broken pipe") ∧
      (newServerConn sampleEnv orderlySchedule brokenWriter upgradeRequest).2 =
        .returned (some (.external "broken pipe")) ∧
      List.drop 13 (newServerConn sampleEnv orderlySchedule brokenWriter upgradeRequest).1.trace =
        [.bufFlush (some (.external "broken pipe")),
         .bufWrite "HTTP/1.1 400 Bad Request\r\n", .bufWrite "\r\n",
         .bufFlush (some (.external "broken pipe"))] ∧
      (newServerConn sampleEnv orderlySchedule brokenWriter upgradeRequest).1.inbuf =
        (AcceptHandshake ⟨brokenWriter, [], []⟩ switchingResponse).1.inbuf ∧
      (newServerConn sampleEnv orderlySchedule brokenWriter upgradeRequest).1.inbuf.err =
        some (.external "broken pipe") ∧
      (newServerConn sampleEnv orderlySchedule brokenWriter upgradeRequest).1.inbuf.buf =
        "HTTP/1.1 101 Switching Protocols\r\nUpgrade: websocket\r\nConnection: Upgrade\r\nSec-WebSocket-Accept: X\r\n\r\n" ∧
      (newServerConn sampleEnv orderlySchedule brokenWriter upgradeRequest).1.inbuf.out = "" ∧
      Contains (newServerConn sampleEnv orderlySchedule brokenWriter upgradeRequest).1.inbuf.buf
        "400 Bad Request" = false ∧
      (serveUpgrade sampleEnv orderlySchedule (.ok brokenWriter) upgradeRequest).2 =
        .returned := by
  decide

/-- In every interleaving, a connection is closed only after the `io.Copy` of
one of the directions has returned. -/
theorem closes_after_a_copy (url : String) (sched : List Tid)
    (h : Event.closeOut ∈ (run url sched (Tunnel.init [])).trace ∨
      Event.closeIn ∈ (run url sched (Tunnel.init [])).trace) :
    Event.copyReturned .inToOut ∈ (run url sched (Tunnel.init [])).trace ∨
      Event.copyReturned .outToIn ∈ (run url sched (Tunnel.init [])).trace := by
  have hinv := run_Inv url sched
  rcases hinv.gate (hinv.closeFirst h) with h1 | h2
  · exact Or.inl (hinv.ended1 h1)
  · exact Or.inr (hinv.ended2 h2)

/-- C6 fails on the code. When both copies end before the handler gets the
mutex again, the first goroutine unlocks `anyComplete`, and the second calls
`Unlock` on the mutex while it is not locked: the process dies, with the
handler still at line 142, and `serveUpgrade` never returns. -/
theorem tunnel_second_unlock_fatal :
    (run "/chat" racySchedule.dropLast (Tunnel.init [])).fatal = false ∧
      (run "/chat" racySchedule.dropLast (Tunnel.init [])).locked = false ∧
      (run "/chat" racySchedule.dropLast (Tunnel.init [])).g2 = .unlock ∧
      (run "/chat" racySchedule (Tunnel.init [])).fatal = true ∧
      (run "/chat" racySchedule (Tunnel.init [])).h = .lock2 ∧
      (run "/chat" racySchedule (Tunnel.init [])).trace.count Event.unlock = 2 ∧
      (run "/chat" racySchedule (Tunnel.init [])).trace.count Event.lock = 1 ∧
      (serveUpgrade sampleEnv racySchedule (.ok goodWriter) upgradeRequest).2 = .fatal := by
  decide

/-- The upgrade type `newServerConn` passes to `NewUpgradeRoundTripper` is the
empty string, whatever the request. -/
theorem upgradeType_always_empty (E : Env) (sched : List Tid) (w : Writer) (req : Request)
    (t : String)
    (h : Event.newUpgradeRoundTripper t ∈ (newServerConn E sched w req).1.trace) : t = "" := by
  have hp := newServerConn_path' E sched w req
  generalize (newServerConn E sched w req).1.trace = tr at hp h
  generalize (newServerConn E sched w req).1.inbuf = b at hp
  generalize (newServerConn E sched w req).2 = o at hp
  have hA : ∀ resp, Event.newUpgradeRoundTripper t ∉ acceptWrites resp := fun resp =>
    not_mem_acceptWrites resp _ (by intro s hs; cases hs)
  have hT : Event.newUpgradeRoundTripper t ∉ (run req.URL sched (Tunnel.init [])).trace :=
    not_mem_tunnel _ _ _ rfl
  cases hp <;> simp [startTrace, upgradeTrace, hA, hT] at h <;> exact h

/-- C10 fails on the code. For the upgrade request of the spec's scenario,
`ReadHandshake` stores the address of its own variable, which holds
`"websocket"`, in the field `UpgradeType`, and leaves the variable
`upgradeType` of `newServerConn` empty; `newServerConn` passes the empty
string to `NewUpgradeRoundTripper` and prints it. -/
theorem newServerConn_upgradeType_lost :
    ReadHandshake sampleEnv ⟨goodWriter, [""], []⟩ ⟨0⟩ upgradeRequest =
        (⟨goodWriter, ["", "websocket"], []⟩, ⟨1⟩, 101, none) ∧
      World.load ⟨goodWriter, ["", "websocket"], []⟩ 1 = "websocket" ∧
      World.load ⟨goodWriter, ["", "websocket"], []⟩ 0 = "" ∧
      Event.newUpgradeRoundTripper "" ∈
        (newServerConn sampleEnv orderlySchedule goodWriter upgradeRequest).1.trace ∧
      Event.newUpgradeRoundTripper "websocket" ∉
        (newServerConn sampleEnv orderlySchedule goodWriter upgradeRequest).1.trace ∧
      Event.println "Inbound upgrade request. type= url:/chat" ∈
        (newServerConn sampleEnv orderlySchedule goodWriter upgradeRequest).1.trace := by
  decide

end UpgradeProxy
